import Mathlib

/-!
Verification development for the Simplecontroller UDP controller server.

The Python sources are shallowly embedded in Lean:
real (IEEE double) arithmetic is modelled by the rationals,
text is modelled by lists of characters, wall-clock readings
(time.time calls) become explicit rational-valued parameters,
and calls into the OS actuator bindings (keyboard, mouse, vgamepad)
become events collected in traces.  Background timers
(threading.Timer) are modelled either as explicit pending entries
that a fire step discharges, or, for the edge-momentum re-arm chain,
as a sequentialized loop.  Python dictionaries become association
lists or per-key record fields.  Logging, socket setup and
exception logging paths have no observable effect and are omitted;
actuator calls are assumed to succeed, as the source swallows their
failures.
-/

set_option autoImplicit false

namespace Simplecontroller

abbrev Chars := List Char

/-- Truncation of a rational toward zero, the behaviour of the Python
int() conversion applied to a float.  Integer division on nonnegative
operands agrees across all rounding conventions, so this definition is
convention independent. -/
def pyInt (q : ℚ) : ℤ :=
  if 0 ≤ q then q.num / q.den else -((-q).num / (-q).den)

/-- Boolean test that p is an initial segment of s (Python startswith). -/
def hasPfx : Chars → Chars → Bool
  | [], _ => true
  | _ :: _, [] => false
  | p :: ps, c :: cs => p == c && hasPfx ps cs

/-- Boolean test that p is a final segment of s (Python endswith). -/
def hasSfx (p s : Chars) : Bool :=
  hasPfx p.reverse s.reverse

/-- Python s.split(sep, 1): the part before the first separator and the
part after it, or none when the separator does not occur. -/
def pySplit1 (sep : Char) : Chars → Option (Chars × Chars)
  | [] => none
  | c :: cs =>
    if c == sep then some ([], cs)
    else (pySplit1 sep cs).map (fun p => (c :: p.1, p.2))

/-- Python s.split(sep, 1)[1] under a guard that guarantees the separator
occurs; defaults to the input when it does not. -/
def splitRest (sep : Char) (s : Chars) : Chars :=
  match pySplit1 sep s with
  | some p => p.2
  | none => s

def splitAllAux (sep : Char) (acc : Chars) : Chars → List Chars
  | [] => [acc.reverse]
  | c :: cs =>
    if c == sep then acc.reverse :: splitAllAux sep [] cs
    else splitAllAux sep (c :: acc) cs

/-- Python s.split(sep) with no count limit. -/
def splitAll (sep : Char) (s : Chars) : List Chars :=
  splitAllAux sep [] s

def isWs (c : Char) : Bool :=
  c == ' ' || c == '\t' || c == '\n' || c == '\r'

/-- Python s.strip(): remove surrounding whitespace. -/
def stripWs (s : Chars) : Chars :=
  ((s.dropWhile isWs).reverse.dropWhile isWs).reverse

/-- Numeric value of a list of decimal digit characters. -/
def digitsToNat (l : Chars) : ℕ :=
  l.foldl (fun a c => 10 * a + (c.toNat - 48)) 0

/-- Python int(s) for an unsigned decimal string: some value when the
string is nonempty and all digits, otherwise none (a ValueError). -/
def pyNat (s : Chars) : Option ℕ :=
  if s.isEmpty || !(s.all Char.isDigit) then none else some (digitsToNat s)

/-- Python float(s) over decimal literals: optional surrounding spaces,
optional sign, digits with an optional fractional part and an optional
decimal exponent.  Returns none where the Python call raises ValueError.
The special spellings inf and nan are not modelled. -/
def pyFloat (s : Chars) : Option ℚ :=
  let s := stripWs s
  let sgn : ℚ := match s with | '-' :: _ => -1 | _ => 1
  let s := match s with | '+' :: r => r | '-' :: r => r | _ => s
  let ip := s.takeWhile Char.isDigit
  let r1 := s.dropWhile Char.isDigit
  let fp := match r1 with | '.' :: r => r.takeWhile Char.isDigit | _ => []
  let r2 := match r1 with | '.' :: r => r.dropWhile Char.isDigit | _ => r1
  if ip.isEmpty && fp.isEmpty then none
  else
    let mant : ℚ := (digitsToNat ip : ℚ) + (digitsToNat fp : ℚ) / ((10 : ℚ) ^ fp.length)
    match r2 with
    | [] => some (sgn * mant)
    | e :: r3 =>
      if e == 'e' || e == 'E' then
        let esgn : ℤ := match r3 with | '-' :: _ => -1 | _ => 1
        let r4 := match r3 with | '+' :: r => r | '-' :: r => r | _ => r3
        match pyNat r4 with
        | none => none
        | some n => some (sgn * mant * (10 : ℚ) ^ (esgn * (n : ℤ)))
      else none

/-- GamepadHandler._normalize_value (GamepadHandler.py lines 222 to 229),
identical to normalize_value in server.py lines 301 to 307: convert a
string to a float clamped to the closed interval from -1 to 1, returning
0.0 when the conversion raises. -/
def normalize_value (s : Chars) : ℚ :=
  match pyFloat s with
  | none => 0
  | some v => max (-1) (min 1 v)

/-- Players the server recognizes. -/
inductive Player
  | p1
  | p2
deriving DecidableEq, Repr

def Player.chars : Player → Chars
  | .p1 => "player1".toList
  | .p2 => "player2".toList

inductive Side
  | left
  | right
deriving DecidableEq, Repr

/-- GamepadHandler.handle_stick_input (GamepadHandler.py lines 42 to 68):
the pair passed to the virtual joystick of the session's own controller.
Both operands are normalized (clamped), a center deadzone zeroes both,
and the y axis is negated on the way to the gamepad. -/
def handle_stick_input (xs ys : Chars) : ℚ × ℚ :=
  let x := normalize_value xs
  let y := normalize_value ys
  let p : ℚ × ℚ := if |x| < 1/20 ∧ |y| < 1/20 then (0, 0) else (x, y)
  (p.1, -p.2)

/-- One record of the NetworkManager active_connections dictionary. -/
structure Conn where
  player_id : Player
  last_seen : ℚ
deriving DecidableEq, Repr

/-- The active_connections dictionary: keys are address strings. -/
abbrev Registry := List (String × Conn)

def lookupA (reg : Registry) (a : String) : Option Conn :=
  match reg with
  | [] => none
  | (k, c) :: r => if k == a then some c else lookupA r a

/-- NetworkManager.clean_inactive_connections (NetworkManager.py lines
134 to 145): collect the keys whose records have seen no traffic for
more than the timeout, then delete those keys. -/
def clean_inactive_connections (now timeout : ℚ) (reg : Registry) : Registry :=
  let to_remove := (reg.filter (fun e => decide (now - e.2.last_seen > timeout))).map Prod.fst
  reg.filter (fun e => !(to_remove.contains e.1))

/-! GamepadHandler button tables and the momentary action scheduler
(GamepadHandler.py lines 30 to 220). -/

/-- The vgamepad XUSB button constants used by the button tables. -/
inductive XButton
  | btnA
  | btnB
  | btnX
  | btnY
  | leftShoulder
  | rightShoulder
  | btnStart
  | btnBack
  | dpadUp
  | dpadDown
  | dpadLeft
  | dpadRight
  | leftThumb
  | rightThumb
deriving DecidableEq, Repr

/-- The xbox_buttons press table of GamepadHandler.handle_button_press
(GamepadHandler.py lines 103 to 151). -/
def xbox_buttons : List (Chars × XButton) :=
  [ ("BUTTON_A_PRESSED".toList, .btnA)
  , ("BUTTON_B_PRESSED".toList, .btnB)
  , ("BUTTON_X_PRESSED".toList, .btnX)
  , ("BUTTON_Y_PRESSED".toList, .btnY)
  , ("BUTTON_LB_PRESSED".toList, .leftShoulder)
  , ("BUTTON_RB_PRESSED".toList, .rightShoulder)
  , ("BUTTON_START_PRESSED".toList, .btnStart)
  , ("BUTTON_BACK_PRESSED".toList, .btnBack)
  , ("BUTTON_DPAD_UP".toList, .dpadUp)
  , ("BUTTON_DPAD_DOWN".toList, .dpadDown)
  , ("BUTTON_DPAD_LEFT".toList, .dpadLeft)
  , ("BUTTON_DPAD_RIGHT".toList, .dpadRight)
  , ("BUTTON_LSTICK_PRESSED".toList, .leftThumb)
  , ("BUTTON_RSTICK_PRESSED".toList, .rightThumb)
  , ("X360A".toList, .btnA)
  , ("X360B".toList, .btnB)
  , ("X360X".toList, .btnX)
  , ("X360Y".toList, .btnY)
  , ("X360LB".toList, .leftShoulder)
  , ("X360RB".toList, .rightShoulder)
  , ("X360START".toList, .btnStart)
  , ("X360BACK".toList, .btnBack)
  , ("X360UP".toList, .dpadUp)
  , ("X360DOWN".toList, .dpadDown)
  , ("X360LEFT".toList, .dpadLeft)
  , ("X360RIGHT".toList, .dpadRight)
  , ("X360LS".toList, .leftThumb)
  , ("X360RS".toList, .rightThumb)
  , ("X360A_HOLD".toList, .btnA)
  , ("X360B_HOLD".toList, .btnB)
  , ("X360X_HOLD".toList, .btnX)
  , ("X360Y_HOLD".toList, .btnY)
  , ("X360LB_HOLD".toList, .leftShoulder)
  , ("X360RB_HOLD".toList, .rightShoulder)
  , ("X360START_HOLD".toList, .btnStart)
  , ("X360BACK_HOLD".toList, .btnBack)
  , ("X360UP_HOLD".toList, .dpadUp)
  , ("X360DOWN_HOLD".toList, .dpadDown)
  , ("X360LEFT_HOLD".toList, .dpadLeft)
  , ("X360RIGHT_HOLD".toList, .dpadRight)
  , ("X360LS_HOLD".toList, .leftThumb)
  , ("X360RS_HOLD".toList, .rightThumb) ]

/-- The xbox_release_commands table of GamepadHandler.handle_button_release
(GamepadHandler.py lines 189 to 207). -/
def xbox_release_commands : List (Chars × XButton) :=
  [ ("BUTTON_A_RELEASED".toList, .btnA)
  , ("BUTTON_B_RELEASED".toList, .btnB)
  , ("X360A_RELEASE".toList, .btnA)
  , ("X360B_RELEASE".toList, .btnB)
  , ("X360X_RELEASE".toList, .btnX)
  , ("X360Y_RELEASE".toList, .btnY)
  , ("X360LB_RELEASE".toList, .leftShoulder)
  , ("X360RB_RELEASE".toList, .rightShoulder)
  , ("X360START_RELEASE".toList, .btnStart)
  , ("X360BACK_RELEASE".toList, .btnBack)
  , ("X360UP_RELEASE".toList, .dpadUp)
  , ("X360DOWN_RELEASE".toList, .dpadDown)
  , ("X360LEFT_RELEASE".toList, .dpadLeft)
  , ("X360RIGHT_RELEASE".toList, .dpadRight)
  , ("X360LS_RELEASE".toList, .leftThumb)
  , ("X360RS_RELEASE".toList, .rightThumb) ]

/-- Dictionary lookup: xbox_buttons[command] after a membership test. -/
def lookupCmd (tbl : List (Chars × XButton)) (c : Chars) : Option XButton :=
  match tbl with
  | [] => none
  | (k, b) :: r => if k == c then some b else lookupCmd r c

/-- Observable gamepad actions of one player's virtual controller. -/
inductive GEvt
  | press (b : XButton)
  | release (b : XButton)
deriving DecidableEq, Repr

/-- State of the momentary action scheduler for one player's controller:
the chronological trace of press and release calls issued to the virtual
controller, and the auto-release timers started by threading.Timer that
have not fired yet (fire time and button).  The per-player controllers in
the source are independent dictionary entries, so one player's controller
is modelled. -/
structure PadState where
  trace : List (ℚ × GEvt)
  pending : List (ℚ × XButton)
deriving DecidableEq, Repr

def PadState.empty : PadState := ⟨[], []⟩

/-- GamepadHandler.handle_button_press (GamepadHandler.py lines 96 to 180)
at time t: press the looked-up button, and start a 100ms (one tenth of a
second) auto-release timer unless auto_release is off or the command name
ends in _HOLD.  Returns the handled flag of the source. -/
def handle_button_press (cmd : Chars) (auto_release : Bool) (t : ℚ) (st : PadState) :
    Bool × PadState :=
  match lookupCmd xbox_buttons cmd with
  | none => (false, st)
  | some btn =>
    let st := { st with trace := st.trace ++ [(t, .press btn)] }
    if auto_release && !(hasSfx ("_HOLD".toList) cmd) then
      (true, { st with pending := st.pending ++ [(t + 1/10, btn)] })
    else
      (true, st)

/-- GamepadHandler.handle_button_release (GamepadHandler.py lines 182 to
220) at time t: release the looked-up button directly.  No pending timer
is inspected, cancelled or removed. -/
def handle_button_release (cmd : Chars) (t : ℚ) (st : PadState) : Bool × PadState :=
  match lookupCmd xbox_release_commands cmd with
  | none => (false, st)
  | some btn => (true, { st with trace := st.trace ++ [(t, .release btn)] })

/-- Advance wall-clock time to T: every pending auto-release timer whose
fire time has been reached fires (GamepadHandler.release_button, lines 30
to 40) and leaves the pending set.  Timers fire in scheduling order,
which is chronological order for the fixed 100ms delay. -/
def fire_timers (T : ℚ) (st : PadState) : PadState :=
  let fired := st.pending.filter (fun e => decide (e.1 ≤ T))
  { trace := st.trace ++ fired.map (fun e => (e.1, GEvt.release e.2))
  , pending := st.pending.filter (fun e => !(decide (e.1 ≤ T))) }

/-- Number of release events in a trace. -/
def countReleases (tr : List (ℚ × GEvt)) : ℕ :=
  tr.countP (fun e => match e.2 with | .release _ => true | _ => false)

/-- Number of press events in a trace. -/
def countPresses (tr : List (ℚ × GEvt)) : ℕ :=
  tr.countP (fun e => match e.2 with | .press _ => true | _ => false)

/-! StabilitySmoother (server.py lines 163 to 296). -/

namespace Stability

/-- Adjustable parameters of StabilitySmoother.__init__: smoothing_factor. -/
def smoothing_factor : ℚ := 7/10

def sensitivity : ℚ := 50

def deadzone : ℚ := 1/100

def max_speed : ℚ := 15

/-- Mutable state of a StabilitySmoother.  The x_buffer and y_buffer
deques are appended to but never read in the source, so they are not
carried.  The wall clock read by process_movement is passed in as the
now argument of that function. -/
structure Smoother where
  prev_x : ℚ
  prev_y : ℚ
  last_dx : ℚ
  last_dy : ℚ
  last_time : ℚ
  frame_count : ℕ
  touch_active : Bool
deriving DecidableEq, Repr

/-- Contextual smoothing factor (server.py lines 251 to 259): stronger
smoothing for the first few frames after a reset and for very rapid
updates. -/
def effective_smoothing (frame_count : ℕ) (dt : ℚ) : ℚ :=
  let e := if frame_count < 5 then min (9/10) (smoothing_factor + 2/10) else smoothing_factor
  if dt < 1/100 then min (9/10) (e + 1/10) else e

/-- Per-axis tail of process_movement (server.py lines 269 to 290):
scale the smoothed delta by the sensitivity, clamp its magnitude to
max_speed, truncate to an integer, and force a minimum unit step when
the smoothed delta exceeds twice the deadzone yet truncated to zero. -/
def scale_axis (smoothed : ℚ) : ℤ :=
  let scaled := smoothed * sensitivity
  let scaled := if |scaled| > max_speed then (if scaled > 0 then max_speed else -max_speed) else scaled
  let final := pyInt scaled
  if |smoothed| > deadzone * 2 ∧ final = 0 then (if smoothed > 0 then 1 else -1) else final

/-- StabilitySmoother.process_movement (server.py lines 211 to 296) at
wall-clock time now: returns the integer pixel delta pair together with
the successor state. -/
def process_movement (st : Smoother) (x y now : ℚ) : (ℤ × ℤ) × Smoother :=
  if st.touch_active = false then
    ((0, 0), { st with prev_x := x, prev_y := y })
  else
    let dt := now - st.last_time
    let fc := st.frame_count + 1
    let delta_x := x - st.prev_x
    let delta_y := y - st.prev_y
    if |delta_x| < deadzone ∧ |delta_y| < deadzone then
      ((0, 0), { st with last_time := now, frame_count := fc, prev_x := x, prev_y := y })
    else
      let es := effective_smoothing fc dt
      let smoothed_dx := delta_x * (1 - es) + st.last_dx * es
      let smoothed_dy := delta_y * (1 - es) + st.last_dy * es
      ((scale_axis smoothed_dx, scale_axis smoothed_dy),
       { st with last_time := now, frame_count := fc, prev_x := x, prev_y := y,
                 last_dx := smoothed_dx, last_dy := smoothed_dy })

end Stability

/-! The modular server pipeline of server.py main: NetworkManager.receive_data
feeds the class CommandProcessor.process_command. -/

namespace Modular

/-- Handler invocations recorded by the class CommandProcessor
(CommandProcessor.py lines 14 to 220).  The mouse and keyboard handler
objects are imported from modules absent from the repository, so their
invocations are recorded abstractly; the gamepad handler is the
GamepadHandler class embedded above. -/
inductive Call
  | mouse_delta (dx dy : ℚ)
  | mouse_touchpad (x y : Chars)
  | mouse_button (cmd : Chars)
  | key_press (k : Chars) (p : Player)
  | key_release (k : Chars) (p : Player)
  | trigger (s : Side) (v : Chars) (p : Player)
  | stick (s : Side) (x y : Chars) (p : Player)
  | wait_cmd (cmd : Chars) (p : Player)
  | pad_release (cmd : Chars) (p : Player)
  | pad_press (cmd : Chars) (p : Player)
  | seq_spawn (cmds : List Chars) (p : Player)
  | kb_press_and_release (k : Chars) (p : Player)
deriving DecidableEq, Repr

/-- The stick_shortcuts dictionary of the class CommandProcessor
(CommandProcessor.py lines 137 to 146). -/
def stick_shortcuts : List (Chars × (Chars × Chars × Side)) :=
  [ ("LS_UP".toList, ("0.0".toList, "1.0".toList, .left))
  , ("LS_DOWN".toList, ("0.0".toList, "-1.0".toList, .left))
  , ("LS_LEFT".toList, ("-1.0".toList, "0.0".toList, .left))
  , ("LS_RIGHT".toList, ("1.0".toList, "0.0".toList, .left))
  , ("RS_UP".toList, ("0.0".toList, "1.0".toList, .right))
  , ("RS_DOWN".toList, ("0.0".toList, "-1.0".toList, .right))
  , ("RS_LEFT".toList, ("-1.0".toList, "0.0".toList, .right))
  , ("RS_RIGHT".toList, ("1.0".toList, "0.0".toList, .right)) ]

def lookupShortcut (tbl : List (Chars × (Chars × Chars × Side))) (c : Chars) :
    Option (Chars × Chars × Side) :=
  match tbl with
  | [] => none
  | (k, v) :: r => if k == c then some v else lookupShortcut r c

/-- The five mouse button tokens routed to the mouse handler by the class
CommandProcessor (CommandProcessor.py line 90). -/
def mouseTokens : List Chars :=
  [ "MOUSE_LEFT_DOWN".toList, "MOUSE_LEFT_UP".toList
  , "TOUCHPAD_END".toList, "TOUCH_END".toList, "MOUSE_RESET".toList ]

/-- CommandProcessor.process_command of the class CommandProcessor
(CommandProcessor.py lines 21 to 190): dispatch one datagram already
attributed to a player, returning the optional reply and the handler
calls made.  The sequence branch spawns a thread over the split
sub-commands; the spawn is recorded as one call rather than recursed
into, as no claim depends on sequence contents here.  Note that the
CONNECT and REGISTER branches only build a reply: they do not touch the
NetworkManager connection registry (the class holds no reference to it,
and NetworkManager.register_player has no caller). -/
def process_command (data0 : Chars) (player_id : Player) : Option Chars × List Call :=
  let data := stripWs data0
  if data.isEmpty then (none, [])
  else if data = "PING".toList then (some ("PONG".toList), [])
  else if hasPfx ("CONNECT:".toList) data then
    let requested_id := stripWs (splitRest ':' data)
    if requested_id = "player1".toList ∨ requested_id = "player2".toList then
      (some ("CONNECTED:".toList ++ requested_id), [])
    else
      (some ("ERROR:invalid_player_id".toList), [])
  else if hasPfx ("REGISTER:".toList) data then
    let requested_id := stripWs (splitRest ':' data)
    if requested_id = "player1".toList ∨ requested_id = "player2".toList then
      (some ("REGISTERED:".toList ++ requested_id), [])
    else
      (some ("ERROR:invalid_player_id".toList), [])
  else if hasPfx ("DELTA:".toList) data then
    match pySplit1 ',' (data.drop 6) with
    | none => (none, [])
    | some (a, b) =>
      match pyFloat a, pyFloat b with
      | some dx, some dy => (none, [.mouse_delta dx dy])
      | _, _ => (none, [])
  else if hasPfx ("TOUCHPAD:".toList) data || hasPfx ("POS:".toList) data then
    match pySplit1 ',' (splitRest ':' data) with
    | none => (none, [])
    | some (x, y) => (none, [.mouse_touchpad x y])
  else if mouseTokens.contains data then (none, [.mouse_button data])
  else if hasPfx ("KEY_SYNC:".toList) data then (none, [])
  else if hasPfx ("KEY_DOWN:".toList) data then
    (none, [.key_press (splitRest ':' data) player_id])
  else if hasPfx ("KEY_UP:".toList) data then
    (none, [.key_release (splitRest ':' data) player_id])
  else if hasPfx ("TRIGGER_L:".toList) data then
    (none, [.trigger .left (splitRest ':' data) player_id])
  else if hasPfx ("TRIGGER_R:".toList) data then
    (none, [.trigger .right (splitRest ':' data) player_id])
  else if hasPfx ("LT:".toList) data then
    (none, [.trigger .left (splitRest ':' data) player_id])
  else if hasPfx ("RT:".toList) data then
    (none, [.trigger .right (splitRest ':' data) player_id])
  else if hasPfx ("WAIT_".toList) data then (none, [.wait_cmd data player_id])
  else
    match lookupShortcut stick_shortcuts data with
    | some (x, y, side) => (none, [.stick side x y player_id])
    | none =>
      let stickRouted : Option Call :=
        match pySplit1 ':' data with
        | none => none
        | some (command, coords) =>
          match pySplit1 ',' coords with
          | none => none
          | some (x, y) =>
            if command = "STICK".toList ∨ command = "STICK_L".toList ∨ command = "LS".toList then
              some (.stick .left x y player_id)
            else if command = "STICK_R".toList ∨ command = "RS".toList then
              some (.stick .right x y player_id)
            else none
      match stickRouted with
      | some c => (none, [c])
      | none =>
        if (lookupCmd xbox_release_commands data).isSome then
          (none, [.pad_release data player_id])
        else if (lookupCmd xbox_buttons data).isSome then
          (none, [.pad_press data player_id])
        else if data.contains ',' then
          (none, [.seq_spawn (splitAll ',' data) player_id])
        else if player_id = .p1 then
          (none, [.kb_press_and_release data .p1])
        else
          (none, [])

def setSeen (reg : Registry) (a : String) (now : ℚ) : Registry :=
  reg.map (fun e => if e.1 == a then (e.1, { e.2 with last_seen := now }) else e)

def setPid (reg : Registry) (a : String) (p : Player) : Registry :=
  reg.map (fun e => if e.1 == a then (e.1, { e.2 with player_id := p }) else e)

/-- NetworkManager.receive_data (NetworkManager.py lines 63 to 103) for
one decoded datagram from a given sender at a given time: create or
refresh the connection record, read the attributed player from it, and
let an explicit player1: or player2: line prefix override and store the
attribution.  Returns the updated registry, the remaining data and the
attributed player. -/
def receive_data (reg : Registry) (addr : String) (data : Chars) (now : ℚ) :
    Registry × Chars × Player :=
  let reg :=
    match lookupA reg addr with
    | none => reg ++ [(addr, { player_id := .p1, last_seen := now })]
    | some _ => setSeen reg addr now
  let pid :=
    match lookupA reg addr with
    | some c => c.player_id
    | none => .p1
  if hasPfx ("player1:".toList) data then
    (setPid reg addr .p1, splitRest ':' data, .p1)
  else if hasPfx ("player2:".toList) data then
    (setPid reg addr .p2, splitRest ':' data, .p2)
  else
    (reg, data, pid)

/-- One iteration of the server.py main receive loop: receive_data then
the class CommandProcessor.  Returns the updated registry, the player
the command was attributed to, the reply and the handler calls. -/
def server_step (reg : Registry) (addr : String) (raw : Chars) (now : ℚ) :
    Registry × Player × Option Chars × List Call :=
  let (reg, data, pid) := receive_data reg addr raw now
  let (reply, calls) := process_command data pid
  (reg, pid, reply, calls)

end Modular

/-! The monolithic server merged into CommandProcessor.py (lines 988 to
1897): global key and mouse state dictionaries, pointer motion with edge
momentum, and the process_command dispatcher.  The lines 710 to 877 copy
of process_command has the same KEY_SYNC, key, trigger, stick and
sequence branches.  Player attribution (the active_connections registry)
is modelled in the Modular namespace; here the attributed player is an
input of process_command, as in the source signature. -/

namespace Mono

/-- Observable actuator calls of the monolithic server: keyboard
presses, mouse button and motion calls, and virtual gamepad calls. -/
inductive Evt
  | kb_press (k : Chars)
  | kb_release (k : Chars)
  | kb_press_and_release (k : Chars)
  | ms_press
  | ms_release
  | ms_move (dx dy : ℤ)
  | gp_press (p : Player) (b : XButton)
  | gp_release (p : Player) (b : XButton)
  | gp_stick (p : Player) (s : Side) (x y : ℚ)
  | gp_trigger (p : Player) (s : Side) (v : ℚ)
deriving DecidableEq, Repr

/-- Events that drive the shared pointer or keyboard, as opposed to the
per-player virtual controllers. -/
def Evt.isPtrKb : Evt → Bool
  | .kb_press _ => true
  | .kb_release _ => true
  | .kb_press_and_release _ => true
  | .ms_press => true
  | .ms_release => true
  | .ms_move _ _ => true
  | _ => false

/-- Pointer and keyboard part of a trace. -/
def ptrKb (evs : List Evt) : List Evt :=
  evs.filter Evt.isPtrKb

/-- One record of the mouse_states dictionary of the monolithic server
(CommandProcessor.py lines 1152 to 1184).  The lazily initialized fields
carry their initialization values as defaults; the wall-clock defaults
are 0.  The write-only diagnostic fields total_dx, total_dy, start_x,
start_y, last_dx, last_dy and last_sent_time are kept and updated as in
the source. -/
structure MouseSt where
  left_down : Bool := false
  is_touchpad_active : Bool := false
  touch_active : Bool := false
  first_input : Bool := true
  momentum_x : ℤ := 0
  momentum_y : ℤ := 0
  edge_active_x : Bool := false
  edge_active_y : Bool := false
  total_dx : ℤ := 0
  total_dy : ℤ := 0
  last_dx : ℤ := 0
  last_dy : ℤ := 0
  prev_x : ℚ := 0
  prev_y : ℚ := 0
  start_x : ℚ := 0
  start_y : ℚ := 0
  last_time : ℚ := 0
  last_sent_time : ℚ := 0
deriving DecidableEq, Repr

/-- Global mutable state of the monolithic server: the key_states and
mouse_states dictionaries (two fixed player keys each) and the pending
auto-release timers started for gamepad button presses. -/
structure SrvState where
  keys1 : List Chars := []
  keys2 : List Chars := []
  mouse1 : MouseSt := {}
  mouse2 : MouseSt := {}
  pending : List (Player × XButton) := []
deriving DecidableEq, Repr

def keysOf (s : SrvState) : Player → List Chars
  | .p1 => s.keys1
  | .p2 => s.keys2

def setKeys (s : SrvState) : Player → List Chars → SrvState
  | .p1, ks => { s with keys1 := ks }
  | .p2, ks => { s with keys2 := ks }

def mouseOf (s : SrvState) : Player → MouseSt
  | .p1 => s.mouse1
  | .p2 => s.mouse2

def setMouse (s : SrvState) : Player → MouseSt → SrvState
  | .p1, ms => { s with mouse1 := ms }
  | .p2, ms => { s with mouse2 := ms }

/-- Dictionary assignment key_states[pid][key] = True. -/
def insertKey (ks : List Chars) (k : Chars) : List Chars :=
  if ks.contains k then ks else ks ++ [k]

/-- Dictionary deletion del key_states[pid][key] guarded by membership. -/
def removeKey (ks : List Chars) (k : Chars) : List Chars :=
  ks.filter (fun x => !(x == k))

/-- Python key.lower(). -/
def lowerChars (k : Chars) : Chars :=
  k.map Char.toLower

/-- Python int(s) for an optionally signed decimal string. -/
def pyIntStr (s : Chars) : Option ℤ :=
  let s := stripWs s
  match s with
  | '-' :: r => (pyNat r).map (fun n => -(n : ℤ))
  | '+' :: r => (pyNat r).map (fun n => (n : ℤ))
  | _ => (pyNat s).map (fun n => (n : ℤ))

/-- handle_key_press (CommandProcessor.py lines 1373 to 1387): mark the
key pressed in the player's key_states entry; the keyboard actuator is
driven only for player1. -/
def handle_key_press (k : Chars) (pid : Player) (s : SrvState) : SrvState × List Evt :=
  let s := setKeys s pid (insertKey (keysOf s pid) k)
  (s, if pid = .p1 then [.kb_press (lowerChars k)] else [])

/-- handle_key_release (CommandProcessor.py lines 1389 to 1405). -/
def handle_key_release (k : Chars) (pid : Player) (s : SrvState) : SrvState × List Evt :=
  let s := setKeys s pid (removeKey (keysOf s pid) k)
  (s, if pid = .p1 then [.kb_release (lowerChars k)] else [])

/-- handle_trigger_input (CommandProcessor.py lines 1116 to 1138):
normalize, clamp to the unit interval, drive the player's own virtual
trigger. -/
def handle_trigger_input (v : Chars) (side : Side) (pid : Player) : List Evt :=
  let value := normalize_value v
  let value := max 0 (min 1 value)
  [.gp_trigger pid side value]

/-- handle_stick_input of the monolithic server (CommandProcessor.py
lines 1090 to 1114), the same computation as
GamepadHandler.handle_stick_input, driving the player's own stick. -/
def handle_stick_input_mono (xs ys : Chars) (side : Side) (pid : Player) : List Evt :=
  let p := handle_stick_input xs ys
  [.gp_stick pid side p.1 p.2]

/-- handle_wait_command (CommandProcessor.py lines 1360 to 1371): parse
the millisecond count after the first underscore; the sleep itself has
no observable effect here.  Returns the handled flag. -/
def handle_wait_command (cmd : Chars) : Bool :=
  match (splitAll '_' cmd).get? 1 with
  | none => false
  | some p => (pyIntStr p).isSome

/-- One decay tick int(momentum * 0.95) of _handle_edge_momentum
(CommandProcessor.py lines 1311 and 1325), as integer arithmetic:
truncation toward zero of 19 m / 20.  The agreement with the rational
reading is the first conjunct of the C7 theorem. -/
def decay_step (m : ℤ) : ℤ :=
  if 0 ≤ m then 19 * m / 20 else -(19 * (-m) / 20)

/-- Axis keeps momentum after a tick: it was edge-active and the decayed
momentum still has magnitude at least 2. -/
def axis_active (active : Bool) (m : ℤ) : Bool :=
  active && decide (2 ≤ (decay_step m).natAbs)

/-- Stored momentum of an axis after a tick: updated to the decayed
value only when the axis keeps momentum (the deactivation branch leaves
the stored value in place). -/
def axis_store (active : Bool) (m : ℤ) : ℤ :=
  if axis_active active m then decay_step m else m

/-- Emitted momentum of an axis for a tick: the decayed value when the
axis keeps momentum, otherwise 0. -/
def axis_out (active : Bool) (m : ℤ) : ℤ :=
  if axis_active active m then decay_step m else 0

/-- Termination measure of the momentum re-arm chain: magnitudes of the
momenta of the still-active axes. -/
def edgeMeas (ms : MouseSt) : ℕ :=
  (if ms.edge_active_x then ms.momentum_x.natAbs else 0) +
  (if ms.edge_active_y then ms.momentum_y.natAbs else 0)

/-- _handle_edge_momentum (CommandProcessor.py lines 1301 to 1358) with
its 20ms threading.Timer re-arm chain sequentialized: each iteration
decays both active axes, deactivates an axis once its magnitude drops
below 2, and emits the momentum pair; the chain re-arms while some axis
stays active.  Returns the final state and the emitted motion pairs;
the caller gates motion onto the mouse actuator for player1 only, as
the emission in the source reads only player_id. -/
def edge_momentum_loop (ms : MouseSt) : MouseSt × List (ℤ × ℤ) :=
  let ax := axis_active ms.edge_active_x ms.momentum_x
  let ay := axis_active ms.edge_active_y ms.momentum_y
  let ox := axis_out ms.edge_active_x ms.momentum_x
  let oy := axis_out ms.edge_active_y ms.momentum_y
  let ms' : MouseSt :=
    { ms with edge_active_x := ax, edge_active_y := ay
            , momentum_x := axis_store ms.edge_active_x ms.momentum_x
            , momentum_y := axis_store ms.edge_active_y ms.momentum_y }
  if h : (ax || ay) = true ∧ (ox ≠ 0 ∨ oy ≠ 0) then
    let ms'' : MouseSt := { ms' with total_dx := ms'.total_dx + ox, total_dy := ms'.total_dy + oy }
    let r := edge_momentum_loop ms''
    (r.1, (ox, oy) :: r.2)
  else
    (ms', [])
termination_by edgeMeas ms
decreasing_by
  rcases h with ⟨hor, -⟩
  have hle : ∀ (b : Bool) (m : ℤ),
      (if axis_active b m = true then (axis_store b m).natAbs else 0) ≤
        (if b = true then m.natAbs else 0) := by
    intro b m
    cases b
    · simp [axis_active]
    · by_cases hb : axis_active true m = true
      · have h2 := hb
        unfold axis_active at h2
        simp only [Bool.true_and, decide_eq_true_eq] at h2
        simp only [hb, if_true, axis_store]
        unfold decay_step at *
        split_ifs at * <;> omega
      · simp [hb]
  have hlt : ∀ (b : Bool) (m : ℤ), axis_active b m = true →
      (if axis_active b m = true then (axis_store b m).natAbs else 0) <
        (if b = true then m.natAbs else 0) := by
    intro b m hb
    cases b
    · exact absurd hb (by simp [axis_active])
    · have h2 := hb
      unfold axis_active at h2
      simp only [Bool.true_and, decide_eq_true_eq] at h2
      simp only [hb, if_true, axis_store]
      unfold decay_step at *
      split_ifs at * <;> omega
  show (if axis_active ms.edge_active_x ms.momentum_x = true then
          (axis_store ms.edge_active_x ms.momentum_x).natAbs else 0) +
       (if axis_active ms.edge_active_y ms.momentum_y = true then
          (axis_store ms.edge_active_y ms.momentum_y).natAbs else 0) <
       (if ms.edge_active_x = true then ms.momentum_x.natAbs else 0) +
       (if ms.edge_active_y = true then ms.momentum_y.natAbs else 0)
  rw [Bool.or_eq_true] at hor
  rcases hor with hA | hA
  · exact add_lt_add_of_lt_of_le (hlt _ _ hA) (hle _ _)
  · exact add_lt_add_of_le_of_lt (hle _ _) (hlt _ _ hA)

/-- The caller-side gate of _handle_edge_momentum: only player1 drives
the shared mouse (CommandProcessor.py line 1343). -/
def handle_edge_momentum (pid : Player) (ms : MouseSt) : MouseSt × List Evt :=
  let r := edge_momentum_loop ms
  (r.1, if pid = .p1 then r.2.map (fun mv => Evt.ms_move mv.1 mv.2) else [])

/-- State-and-motion core of handle_touchpad_input (CommandProcessor.py
lines 1140 to 1298) on one mouse_states record: lazy initialization is
subsumed by the record defaults, the wall clock is the now argument,
and the would-be mouse motions are returned for the caller to gate on
player1. -/
def touch_core (ms0 : MouseSt) (xs ys : Chars) (now : ℚ) : MouseSt × List (ℤ × ℤ) :=
  let x := normalize_value xs
  let y := normalize_value ys
  let ms := { ms0 with last_time := now }
  if ms.touch_active = false ∨ ms.first_input = true then
    ({ ms with first_input := false, touch_active := true
             , start_x := x, start_y := y, prev_x := x, prev_y := y }, [])
  else
    let dx_raw := x - ms.prev_x
    let dy_raw := y - ms.prev_y
    let ms := { ms with prev_x := x, prev_y := y }
    if |dx_raw| < 8/10000 ∧ |dy_raw| < 8/10000 then
      if ms.edge_active_x = true ∨ ms.edge_active_y = true then edge_momentum_loop ms
      else (ms, [])
    else
      let dx_raw := if |dx_raw| < 1/100 then dx_raw * (3/2)
                    else if |dx_raw| > 8/100 then dx_raw * (11/5) else dx_raw
      let dy_raw := if |dy_raw| < 1/100 then dy_raw * (3/2)
                    else if |dy_raw| > 8/100 then dy_raw * (11/5) else dy_raw
      let dx := pyInt (dx_raw * 150)
      let dy := pyInt (dy_raw * 150)
      let dx := if dx = 0 ∧ |dx_raw| > 2/1000 then (if dx_raw > 0 then 1 else -1) else dx
      let dy := if dy = 0 ∧ |dy_raw| > 2/1000 then (if dy_raw > 0 then 1 else -1) else dy
      let edge_x := |x| > 9/10
      let edge_y := |y| > 9/10
      let ms := if edge_x ∧ |dx| > 2 then { ms with momentum_x := dx, edge_active_x := true } else ms
      let ms := if edge_y ∧ |dy| > 2 then { ms with momentum_y := dy, edge_active_y := true } else ms
      let ms := { ms with total_dx := ms.total_dx + dx, total_dy := ms.total_dy + dy
                        , last_dx := dx, last_dy := dy, last_sent_time := now }
      let ms := if ms.is_touchpad_active = false ∧ (|dx| > 0 ∨ |dy| > 0) then
                  { ms with is_touchpad_active := true } else ms
      let moves := if ms.is_touchpad_active = true then [(dx, dy)] else []
      if edge_x ∨ edge_y then
        let r := edge_momentum_loop ms
        (r.1, moves ++ r.2)
      else
        (ms, moves)

/-- handle_touchpad_input (CommandProcessor.py lines 1140 to 1298):
run the core on the player's own record and drive the shared mouse only
for player1 (lines 1284 and 1343). -/
def handle_touchpad_input (xs ys : Chars) (pid : Player) (now : ℚ) (s : SrvState) :
    SrvState × List Evt :=
  let r := touch_core (mouseOf s pid) xs ys now
  (setMouse s pid r.1,
   if pid = .p1 then r.2.map (fun mv => Evt.ms_move mv.1 mv.2) else [])

/-- handle_button_press of the monolithic server (CommandProcessor.py
lines 1407 to 1579): key protocol commands, wait, mouse buttons
(player1 only), gamepad release and press tables (press schedules a
100ms auto-release timer unless the name ends in _HOLD), and the
fallback that types any other token as a literal key for player1. -/
def handle_button_press (cmd : Chars) (pid : Player) (s : SrvState) :
    Bool × SrvState × List Evt :=
  if hasPfx ("KEY_DOWN:".toList) cmd then
    let r := handle_key_press (splitRest ':' cmd) pid s
    (true, r.1, r.2)
  else if hasPfx ("KEY_UP:".toList) cmd then
    let r := handle_key_release (splitRest ':' cmd) pid s
    (true, r.1, r.2)
  else if hasPfx ("KEY_SYNC:".toList) cmd then
    let r := handle_key_press (splitRest ':' cmd) pid s
    (true, r.1, r.2)
  else if hasPfx ("WAIT_".toList) cmd then
    (handle_wait_command cmd, s, [])
  else if cmd = "MOUSE_LEFT_DOWN".toList then
    if pid = .p1 then
      (true, setMouse s .p1 { mouseOf s .p1 with left_down := true }, [.ms_press])
    else (true, s, [])
  else if cmd = "MOUSE_LEFT_UP".toList then
    if pid = .p1 then
      (true, setMouse s .p1 { mouseOf s .p1 with left_down := false }, [.ms_release])
    else (true, s, [])
  else
    match lookupCmd xbox_release_commands cmd with
    | some b => (true, s, [.gp_release pid b])
    | none =>
      match lookupCmd xbox_buttons cmd with
      | some b =>
        let s := if !(hasSfx ("_HOLD".toList) cmd) then
                   { s with pending := s.pending ++ [(pid, b)] } else s
        (true, s, [.gp_press pid b])
      | none =>
        if pid = .p1 then (true, s, [.kb_press_and_release (lowerChars cmd)])
        else (true, s, [])

/-- process_timed_sequence (CommandProcessor.py lines 1581 to 1590):
run each stripped nonempty sub-command through handle_button_press, in
order.  The spawning thread is sequentialized. -/
def process_timed_sequence (cmds : List Chars) (pid : Player) (s : SrvState) :
    SrvState × List Evt :=
  match cmds with
  | [] => (s, [])
  | c :: rest =>
    let c := stripWs c
    if c.isEmpty then process_timed_sequence rest pid s
    else
      let r := handle_button_press c pid s
      let r2 := process_timed_sequence rest pid r.2.1
      (r2.1, r.2.2 ++ r2.2)

/-- process_command of the monolithic server (CommandProcessor.py lines
1592 to 1788): full dispatch for one datagram attributed to a player at
a given wall-clock time.  The active_connections bookkeeping touches
only the attribution registry, which the Modular namespace models; the
CONNECT and REGISTER branches here return their reply.  The exception
wrapper of the source never fires in this total model. -/
def process_command (data0 : Chars) (pid0 : Player) (now : ℚ) (s : SrvState) :
    SrvState × Option Chars × List Evt :=
  let data := stripWs data0
  if data = "PING".toList then (s, some ("PONG".toList), [])
  else if data = "TOUCHPAD_DOWN".toList then
    (setMouse s pid0 { mouseOf s pid0 with touch_active := true, first_input := true }, none, [])
  else if data = "TOUCHPAD_UP".toList then
    (setMouse s pid0 { mouseOf s pid0 with touch_active := false }, none, [])
  else if hasPfx ("CONNECT:".toList) data then
    let requested_id := stripWs (splitRest ':' data)
    if requested_id = "player1".toList ∨ requested_id = "player2".toList then
      (s, some ("CONNECTED:".toList ++ requested_id), [])
    else
      (s, some ("ERROR:invalid_player_id".toList), [])
  else if hasPfx ("REGISTER:".toList) data then
    let requested_id := stripWs (splitRest ':' data)
    if requested_id = "player1".toList ∨ requested_id = "player2".toList then
      (s, some ("REGISTERED:".toList ++ requested_id), [])
    else
      (s, some ("ERROR:invalid_player_id".toList), [])
  else
    let pd : Player × Chars :=
      match pySplit1 ':' data with
      | some (h, rest) =>
        if h = "player1".toList then (.p1, rest)
        else if h = "player2".toList then (.p2, rest)
        else (pid0, data)
      | none => (pid0, data)
    let pid := pd.1
    let data := pd.2
    if hasPfx ("KEY_DOWN:".toList) data then
      let r := handle_key_press (splitRest ':' data) pid s
      (r.1, none, r.2)
    else if hasPfx ("KEY_UP:".toList) data then
      let r := handle_key_release (splitRest ':' data) pid s
      (r.1, none, r.2)
    else if hasPfx ("KEY_SYNC:".toList) data then
      let r := handle_key_press (splitRest ':' data) pid s
      (r.1, none, r.2)
    else if hasPfx ("TRIGGER_L:".toList) data then
      (s, none, handle_trigger_input (splitRest ':' data) .left pid)
    else if hasPfx ("TRIGGER_R:".toList) data then
      (s, none, handle_trigger_input (splitRest ':' data) .right pid)
    else if hasPfx ("LT:".toList) data then
      (s, none, handle_trigger_input (splitRest ':' data) .left pid)
    else if hasPfx ("RT:".toList) data then
      (s, none, handle_trigger_input (splitRest ':' data) .right pid)
    else if hasPfx ("WAIT_".toList) data then
      (s, none, [])
    else
      match Modular.lookupShortcut Modular.stick_shortcuts data with
      | some (xv, yv, side) => (s, none, handle_stick_input_mono xv yv side pid)
      | none =>
        match pySplit1 ':' data with
        | some (command, coords) =>
          (match pySplit1 ',' coords with
           | some (xv, yv) =>
             if command = "STICK".toList ∨ command = "STICK_L".toList ∨ command = "LS".toList then
               (s, none, handle_stick_input_mono xv yv .left pid)
             else if command = "STICK_R".toList ∨ command = "RS".toList then
               (s, none, handle_stick_input_mono xv yv .right pid)
             else if command = "TOUCHPAD".toList ∨ command = "POS".toList then
               let r := handle_touchpad_input xv yv pid now s
               (r.1, none, r.2)
             else (s, none, [])
           | none => (s, none, []))
        | none =>
          if data.contains ',' then
            let r := process_timed_sequence (splitAll ',' data) pid s
            (r.1, none, r.2)
          else
            let r := handle_button_press data pid s
            (r.2.1, none, r.2.2)

/-- Bare-token stage of the process_command dispatch: comma sequences
and single button tokens.  The staging of the dispatch tail into the
four defs below is definitionally equal to the source dispatch and
keeps the case analyses of the interference lemmas small. -/
def process_bare (data : Chars) (pid : Player) (s : SrvState) :
    SrvState × Option Chars × List Evt :=
  if data.contains ',' then
    let r := process_timed_sequence (splitAll ',' data) pid s
    (r.1, none, r.2)
  else
    let r := handle_button_press data pid s
    (r.2.1, none, r.2.2)

/-- Coordinate stage of the process_command dispatch: colon commands
with comma coordinates (sticks and absolute touch). -/
def process_coords (data : Chars) (pid : Player) (now : ℚ) (s : SrvState) :
    SrvState × Option Chars × List Evt :=
  match pySplit1 ':' data with
  | some (command, coords) =>
    (match pySplit1 ',' coords with
     | some (xv, yv) =>
       if command = "STICK".toList ∨ command = "STICK_L".toList ∨ command = "LS".toList then
         (s, none, handle_stick_input_mono xv yv .left pid)
       else if command = "STICK_R".toList ∨ command = "RS".toList then
         (s, none, handle_stick_input_mono xv yv .right pid)
       else if command = "TOUCHPAD".toList ∨ command = "POS".toList then
         let r := handle_touchpad_input xv yv pid now s
         (r.1, none, r.2)
       else (s, none, [])
     | none => (s, none, []))
  | none => process_bare data pid s

/-- Stick-shortcut stage of the process_command dispatch. -/
def process_shortcut (data : Chars) (pid : Player) (now : ℚ) (s : SrvState) :
    SrvState × Option Chars × List Evt :=
  match Modular.lookupShortcut Modular.stick_shortcuts data with
  | some (xv, yv, side) => (s, none, handle_stick_input_mono xv yv side pid)
  | none => process_coords data pid now s

/-- Dispatch tail of process_command after the player1:/player2:
reattribution, with the reattributed line and player as parameters. -/
def process_tail (data : Chars) (pid : Player) (now : ℚ) (s : SrvState) :
    SrvState × Option Chars × List Evt :=
  if hasPfx ("KEY_DOWN:".toList) data then
    let r := handle_key_press (splitRest ':' data) pid s
    (r.1, none, r.2)
  else if hasPfx ("KEY_UP:".toList) data then
    let r := handle_key_release (splitRest ':' data) pid s
    (r.1, none, r.2)
  else if hasPfx ("KEY_SYNC:".toList) data then
    let r := handle_key_press (splitRest ':' data) pid s
    (r.1, none, r.2)
  else if hasPfx ("TRIGGER_L:".toList) data then
    (s, none, handle_trigger_input (splitRest ':' data) .left pid)
  else if hasPfx ("TRIGGER_R:".toList) data then
    (s, none, handle_trigger_input (splitRest ':' data) .right pid)
  else if hasPfx ("LT:".toList) data then
    (s, none, handle_trigger_input (splitRest ':' data) .left pid)
  else if hasPfx ("RT:".toList) data then
    (s, none, handle_trigger_input (splitRest ':' data) .right pid)
  else if hasPfx ("WAIT_".toList) data then
    (s, none, [])
  else
    process_shortcut data pid now s

/-- process_command with the reattribution staged through process_tail;
definitionally equal to process_command. -/
def process_staged (data0 : Chars) (pid0 : Player) (now : ℚ) (s : SrvState) :
    SrvState × Option Chars × List Evt :=
  let data := stripWs data0
  if data = "PING".toList then (s, some ("PONG".toList), [])
  else if data = "TOUCHPAD_DOWN".toList then
    (setMouse s pid0 { mouseOf s pid0 with touch_active := true, first_input := true }, none, [])
  else if data = "TOUCHPAD_UP".toList then
    (setMouse s pid0 { mouseOf s pid0 with touch_active := false }, none, [])
  else if hasPfx ("CONNECT:".toList) data then
    let requested_id := stripWs (splitRest ':' data)
    if requested_id = "player1".toList ∨ requested_id = "player2".toList then
      (s, some ("CONNECTED:".toList ++ requested_id), [])
    else
      (s, some ("ERROR:invalid_player_id".toList), [])
  else if hasPfx ("REGISTER:".toList) data then
    let requested_id := stripWs (splitRest ':' data)
    if requested_id = "player1".toList ∨ requested_id = "player2".toList then
      (s, some ("REGISTERED:".toList ++ requested_id), [])
    else
      (s, some ("ERROR:invalid_player_id".toList), [])
  else
    let pd : Player × Chars :=
      match pySplit1 ':' data with
      | some (h, rest) =>
        if h = "player1".toList then (.p1, rest)
        else if h = "player2".toList then (.p2, rest)
        else (pid0, data)
      | none => (pid0, data)
    process_tail pd.2 pd.1 now s

/-- Receive-loop iteration sequence: process a list of attributed
datagrams in order, concatenating the actuator traces. -/
def mono_run (s : SrvState) : List (Chars × Player × ℚ) → SrvState × List Evt
  | [] => (s, [])
  | (d, p, t) :: rest =>
    let r := process_command d p t s
    let r2 := mono_run r.1 rest
    (r2.1, r.2.2 ++ r2.2)

end Mono

/-- Player-one projection of the monolithic server state: the parts that
feed the shared pointer and keyboard actuators. -/
def eqP1 (s t : Mono.SrvState) : Prop :=
  s.keys1 = t.keys1 ∧ s.mouse1 = t.mouse1

namespace Mono

/-- Datagram classes of the C6 authority claim, evaluated on the
stripped line as the dispatcher sees it: the key protocol commands,
the mouse button commands, absolute touch motion, and the bare tokens
that fall through to the keyboard fallback. -/
def player2_passive (data0 : Chars) : Bool :=
  let d := stripWs data0
  hasPfx ("KEY_DOWN:".toList) d || hasPfx ("KEY_UP:".toList) d ||
  d == "MOUSE_LEFT_DOWN".toList || d == "MOUSE_LEFT_UP".toList ||
  (match pySplit1 ':' d with
   | some (command, coords) =>
     (command == "TOUCHPAD".toList || command == "POS".toList) && (pySplit1 ',' coords).isSome
   | none =>
     !(d.isEmpty) && !(d.contains ',') &&
     !(d == "PING".toList) && !(d == "TOUCHPAD_DOWN".toList) && !(d == "TOUCHPAD_UP".toList) &&
     !(hasPfx ("WAIT_".toList) d) &&
     (Modular.lookupShortcut Modular.stick_shortcuts d).isNone &&
     (lookupCmd xbox_release_commands d).isNone && (lookupCmd xbox_buttons d).isNone)

end Mono

/-! ### Helper lemmas -/

theorem pyInt_eq_floor {q : ℚ} (h : 0 ≤ q) : pyInt q = ⌊q⌋ := by
  unfold pyInt
  rw [if_pos h, Rat.floor_def]

theorem pyInt_eq_ceil {q : ℚ} (h : ¬ 0 ≤ q) : pyInt q = ⌈q⌉ := by
  unfold pyInt
  rw [if_neg h]
  have h1 : ((-q).num / ((-q).den : ℤ)) = ⌊-q⌋ := (Rat.floor_def).symm
  rw [h1, Int.floor_neg, neg_neg]

theorem pyInt_eq_floor_ceil (q : ℚ) : pyInt q = if 0 ≤ q then ⌊q⌋ else ⌈q⌉ := by
  by_cases h : 0 ≤ q
  · rw [if_pos h, pyInt_eq_floor h]
  · rw [if_neg h, pyInt_eq_ceil h]

theorem one_le_pyInt {q : ℚ} (h : 1 ≤ q) : 1 ≤ pyInt q := by
  rw [pyInt_eq_floor (le_trans zero_le_one h)]
  exact Int.le_floor.mpr (by exact_mod_cast h)

theorem pyInt_le_neg_one {q : ℚ} (h : q ≤ -1) : pyInt q ≤ -1 := by
  rw [pyInt_eq_ceil (by linarith)]
  exact Int.ceil_le.mpr (by exact_mod_cast h)

theorem abs_pyInt_le {q : ℚ} {n : ℤ} (hn : 0 ≤ n) (h : |q| ≤ (n : ℚ)) : |pyInt q| ≤ n := by
  rw [abs_le] at h ⊢
  rcases le_or_lt 0 q with hq | hq
  · rw [pyInt_eq_floor hq]
    constructor
    · calc (-n : ℤ) ≤ 0 := by omega
        _ ≤ ⌊q⌋ := Int.floor_nonneg.mpr hq
    · calc ⌊q⌋ ≤ ⌊(n : ℚ)⌋ := Int.floor_le_floor h.2
        _ = n := Int.floor_intCast n
  · rw [pyInt_eq_ceil (not_le.mpr hq)]
    constructor
    · calc (-n : ℤ) = ⌈((-n : ℤ) : ℚ)⌉ := (Int.ceil_intCast _).symm
        _ ≤ ⌈q⌉ := Int.ceil_le_ceil (by push_cast; linarith [h.1])
    · calc ⌈q⌉ ≤ ⌈(0 : ℚ)⌉ := Int.ceil_le_ceil hq.le
        _ = 0 := by simp
        _ ≤ n := hn

theorem normalize_value_range (s : Chars) :
    -1 ≤ normalize_value s ∧ normalize_value s ≤ 1 := by
  unfold normalize_value
  cases h : pyFloat s with
  | none => norm_num
  | some v =>
    refine ⟨le_max_left _ _, max_le (by norm_num) ?_⟩
    exact min_le_left _ _

theorem registry_key_unique {reg : Registry} (hnd : (reg.map Prod.fst).Nodup)
    {a : String} {c c' : Conn} (h1 : (a, c) ∈ reg) (h2 : (a, c') ∈ reg) : c = c' := by
  induction reg with
  | nil => cases h1
  | cons e rest ih =>
    simp only [List.map_cons, List.nodup_cons] at hnd
    rcases List.mem_cons.mp h1 with rfl | h1'
    · rcases List.mem_cons.mp h2 with h | h2'
      · exact (congrArg Prod.snd h).symm
      · exact absurd (List.mem_map.mpr ⟨_, h2', rfl⟩) hnd.1
    · rcases List.mem_cons.mp h2 with rfl | h2'
      · exact absurd (List.mem_map.mpr ⟨_, h1', rfl⟩) hnd.1
      · exact ih hnd.2 h1' h2'

theorem hasPfx_append (p k : Chars) : hasPfx p (p ++ k) = true := by
  induction p with
  | nil => rfl
  | cons c cs ih => simp [hasPfx, ih]

theorem dropWhile_append_cons (q : Char → Bool) (l rest : Chars) (c : Char)
    (h : q c = false) :
    (l ++ c :: rest).dropWhile q = l.dropWhile q ++ c :: rest := by
  induction l with
  | nil => simp [List.dropWhile, h]
  | cons a as ih =>
    by_cases ha : q a = true
    · simp [List.dropWhile_cons, ha, ih]
    · simp only [Bool.not_eq_true] at ha
      simp [List.dropWhile_cons, ha]

theorem stripWs_sandwich (x y : Char) (mid k : Chars)
    (hx : isWs x = false) (hy : isWs y = false) :
    stripWs ((x :: mid ++ [y]) ++ k) =
      (x :: mid ++ [y]) ++ (k.reverse.dropWhile isWs).reverse := by
  unfold stripWs
  rw [show ((x :: mid ++ [y]) ++ k) = x :: (mid ++ [y] ++ k) by simp]
  rw [List.dropWhile_cons, if_neg (by simp [hx])]
  rw [show (x :: (mid ++ [y] ++ k)).reverse = k.reverse ++ (y :: (mid.reverse ++ [x])) by simp]
  rw [dropWhile_append_cons _ _ _ _ hy, List.reverse_append]
  simp

theorem pySplit1_not_mem_append (c : Char) (q k : Chars) (hq : c ∉ q) :
    pySplit1 c (q ++ c :: k) = some (q, k) := by
  induction q with
  | nil => simp [pySplit1]
  | cons a as ih =>
    simp only [List.mem_cons, not_or] at hq
    have ha : (a == c) = false := beq_eq_false_iff_ne.mpr (fun h => hq.1 h.symm)
    simp [pySplit1, ha, ih hq.2]

theorem pySplit1_eq_none_iff (c : Char) (d : Chars) :
    pySplit1 c d = none ↔ c ∉ d := by
  induction d with
  | nil => simp [pySplit1]
  | cons a as ih =>
    by_cases ha : a == c
    · simp [pySplit1, ha, eq_of_beq ha]
    · have ha' : a ≠ c := by simpa [beq_eq_false_iff_ne, Ne] using ha
      constructor
      · intro h hm
        rcases List.mem_cons.mp hm with rfl | hm'
        · exact ha' rfl
        · have : pySplit1 c as = none := by
            by_contra hne
            rcases Option.ne_none_iff_exists.mp hne with ⟨v, hv⟩
            simp [pySplit1, ha, ← hv] at h
          exact (ih.mp this) hm'
      · intro hm
        have : c ∉ as := fun hc => hm (List.mem_cons_of_mem _ hc)
        simp [pySplit1, ha, ih.mpr this]

theorem contains_of_hasPfx {p d : Chars} (h : hasPfx p d = true) {c : Char}
    (hc : c ∈ p) : c ∈ d := by
  induction p generalizing d with
  | nil => cases hc
  | cons a as ih =>
    cases d with
    | nil => simp [hasPfx] at h
    | cons b bs =>
      simp only [hasPfx, Bool.and_eq_true, beq_iff_eq] at h
      rcases List.mem_cons.mp hc with rfl | hc'
      · exact h.1 ▸ List.mem_cons_self _ _
      · exact List.mem_cons_of_mem _ (ih h.2 hc')

/-! ### Claim theorems -/

/-- C8: for every input string, normalize_value returns a value in the
closed interval from -1 to 1; for any string that does not parse as a
float it returns exactly 0 (the total Lean function never raises by
construction, mirroring the exception handler of the source). -/
theorem C8_normalize_total_and_clamped :
    (∀ s : Chars, -1 ≤ normalize_value s ∧ normalize_value s ≤ 1) ∧
    (∀ s : Chars, pyFloat s = none → normalize_value s = 0) := by
  constructor
  · exact normalize_value_range
  · intro s h
    simp [normalize_value, h]

/-- Witness for C8 at the concrete non-numeric string abc. -/
theorem C8_witness :
    pyFloat ("abc".toList) = none ∧ normalize_value ("abc".toList) = 0 :=
  ⟨by decide, C8_normalize_total_and_clamped.2 ("abc".toList) (by decide)⟩

/-- C10: in handle_stick_input both operands are clamped to the interval
from -1 to 1; if both clamped magnitudes are below 0.05 the stick is set
to exactly (0, 0), otherwise the pair sent to the virtual controller is
(x, -y), the y axis negated relative to the wire value. -/
theorem C10_stick_deadzone_and_y_negation :
    ∀ xs ys : Chars,
      (-1 ≤ normalize_value xs ∧ normalize_value xs ≤ 1 ∧
       -1 ≤ normalize_value ys ∧ normalize_value ys ≤ 1) ∧
      handle_stick_input xs ys =
        (if |normalize_value xs| < 1/20 ∧ |normalize_value ys| < 1/20 then (0, 0)
         else (normalize_value xs, -(normalize_value ys))) := by
  intro xs ys
  refine ⟨⟨(normalize_value_range xs).1, (normalize_value_range xs).2,
          (normalize_value_range ys).1, (normalize_value_range ys).2⟩, ?_⟩
  unfold handle_stick_input
  by_cases h : |normalize_value xs| < 1/20 ∧ |normalize_value ys| < 1/20
  · simp only [if_pos h]
    norm_num
  · simp only [if_neg h]

/-- C9: the registry sweep with a 30 second timeout removes exactly the
sessions whose last_seen lies more than 30 seconds before the sweep
time, and keeps every other session unchanged. -/
theorem C9_sweep_postcondition :
    ∀ (reg : Registry) (now : ℚ), (reg.map Prod.fst).Nodup →
      ∀ (a : String) (c : Conn),
        (a, c) ∈ clean_inactive_connections now 30 reg ↔
          ((a, c) ∈ reg ∧ ¬(now - c.last_seen > 30)) := by
  intro reg now hnd a c
  unfold clean_inactive_connections
  constructor
  · intro h
    rcases List.mem_filter.mp h with ⟨h1, h2⟩
    rw [Bool.not_eq_true'] at h2
    refine ⟨h1, fun hstale => ?_⟩
    have h3 : (List.map Prod.fst
        (List.filter (fun e => decide (now - e.2.last_seen > 30)) reg)).contains a = true :=
      List.elem_iff.mpr (List.mem_map.mpr
        ⟨(a, c), List.mem_filter.mpr ⟨h1, by simpa using hstale⟩, rfl⟩)
    rw [h3] at h2
    cases h2
  · rintro ⟨hmem, hfresh⟩
    refine List.mem_filter.mpr ⟨hmem, ?_⟩
    rw [Bool.not_eq_true', Bool.eq_false_iff]
    intro hc
    rcases List.mem_map.mp (List.elem_iff.mp hc) with ⟨⟨a', c'⟩, hmem', rfl⟩
    rcases List.mem_filter.mp hmem' with ⟨hin, hstale⟩
    have heq := registry_key_unique hnd hmem hin
    simp only [decide_eq_true_eq] at hstale
    exact hfresh (heq ▸ hstale)

/-- Witness for C9: with a sweep at second 30, a session last seen at
second 25 survives and one last seen 35 seconds earlier is evicted. -/
theorem C9_witness :
    let regW : Registry := [("alice", ⟨.p1, 25⟩), ("bob", ⟨.p2, -5⟩)]
    ("alice", (⟨.p1, 25⟩ : Conn)) ∈ clean_inactive_connections 30 30 regW ∧
    ("bob", (⟨.p2, -5⟩ : Conn)) ∉ clean_inactive_connections 30 30 regW := by
  intro regW
  constructor
  · exact (C9_sweep_postcondition regW 30 (by decide) "alice" ⟨.p1, 25⟩).mpr
      ⟨by decide, by norm_num⟩
  · intro h
    have := (C9_sweep_postcondition regW 30 (by decide) "bob" ⟨.p2, -5⟩).mp h
    norm_num at this

theorem scale_axis_abs_le (s : ℚ) : |Stability.scale_axis s| ≤ 15 := by
  simp only [Stability.scale_axis, Stability.sensitivity, Stability.max_speed,
    Stability.deadzone]
  by_cases hf : |s| > 1/100 * 2 ∧
      pyInt (if |s * 50| > 15 then (if s * 50 > 0 then (15:ℚ) else -15) else s * 50) = 0
  · rw [if_pos hf]
    split_ifs <;> norm_num
  · rw [if_neg hf]
    by_cases h1 : |s * 50| > 15
    · rw [if_pos h1]
      by_cases h2 : s * 50 > 0
      · rw [if_pos h2, show pyInt (15:ℚ) = 15 from by decide]
        norm_num
      · rw [if_neg h2, show pyInt ((-15):ℚ) = -15 from by decide]
        norm_num
    · rw [if_neg h1]
      exact abs_pyInt_le (by norm_num) (by push_cast; linarith [not_lt.mp h1])

theorem scale_axis_pos {s : ℚ} (hs : 1/50 < s) : 1 ≤ Stability.scale_axis s := by
  have hpos : (1 : ℚ) < s * 50 := by linarith
  have hs0 : s * 50 > 0 := by linarith
  simp only [Stability.scale_axis, Stability.sensitivity, Stability.max_speed,
    Stability.deadzone]
  by_cases h1 : |s * 50| > 15
  · rw [if_pos h1, if_pos hs0, show pyInt (15:ℚ) = 15 from by decide]
    rw [if_neg (by norm_num)]
    norm_num
  · rw [if_neg h1]
    have hge : 1 ≤ pyInt (s * 50) := one_le_pyInt hpos.le
    rw [if_neg (fun hc => absurd hc.2 (by omega))]
    exact hge

theorem scale_axis_neg {s : ℚ} (hs : s < -(1/50)) : Stability.scale_axis s ≤ -1 := by
  have hneg : s * 50 < -1 := by linarith
  simp only [Stability.scale_axis, Stability.sensitivity, Stability.max_speed,
    Stability.deadzone]
  by_cases h1 : |s * 50| > 15
  · rw [if_pos h1, if_neg (not_lt.mpr (by linarith)), show pyInt ((-15):ℚ) = -15 from by decide]
    rw [if_neg (by norm_num)]
    norm_num
  · rw [if_neg h1]
    have hge : pyInt (s * 50) ≤ -1 := pyInt_le_neg_one hneg.le
    rw [if_neg (fun hc => absurd hc.2 (by omega))]
    exact hge

/-- C3 counterexample: in the stability smoother, with the smoothed x
delta equal to 0.01 (above half the deadzone of 0.01, as the claim
requires) and the scaled value 0.5 truncating to integer zero, the
emitted x delta is 0, not the claimed minimum unit step of 1: the
forcing threshold in the code is twice the deadzone, not half of it. -/
theorem C3_counterexample :
    (Stability.process_movement ⟨0, 0, 0, 0, 0, 10, true⟩ (1/30) 0 (1/50)).2.last_dx = 1/100 ∧
    ((1:ℚ)/100 > Stability.deadzone / 2) ∧
    (Stability.process_movement ⟨0, 0, 0, 0, 0, 10, true⟩ (1/30) 0 (1/50)).1.1 = 0 := by
  refine ⟨?_, by norm_num [Stability.deadzone], ?_⟩ <;>
    norm_num [Stability.process_movement, Stability.effective_smoothing, Stability.scale_axis,
      Stability.sensitivity, Stability.max_speed, Stability.deadzone, Stability.smoothing_factor,
      pyInt_eq_floor_ceil, abs_of_pos, abs_of_neg, abs_of_nonneg]

/-- C3 (amended): for an active touch outside the input deadzone, each
emitted axis delta is clamped to magnitude at most max_speed = 15, and
whenever the smoothed delta of an axis (stored in last_dx or last_dy)
exceeds TWICE the deadzone in magnitude, the emitted pixel delta of that
axis is nonzero with the sign of the smoothed delta, through truncation
or the forced unit step; between half and twice the deadzone the motion
may round to zero (see the counterexample). -/
theorem C3_clamp_and_minstep :
    ∀ (st : Stability.Smoother) (x y now : ℚ),
      st.touch_active = true →
      ¬(|x - st.prev_x| < Stability.deadzone ∧ |y - st.prev_y| < Stability.deadzone) →
      (|(Stability.process_movement st x y now).1.1| ≤ 15 ∧
       |(Stability.process_movement st x y now).1.2| ≤ 15) ∧
      ((Stability.process_movement st x y now).2.last_dx > 2 * Stability.deadzone →
        1 ≤ (Stability.process_movement st x y now).1.1) ∧
      ((Stability.process_movement st x y now).2.last_dx < -(2 * Stability.deadzone) →
        (Stability.process_movement st x y now).1.1 ≤ -1) ∧
      ((Stability.process_movement st x y now).2.last_dy > 2 * Stability.deadzone →
        1 ≤ (Stability.process_movement st x y now).1.2) ∧
      ((Stability.process_movement st x y now).2.last_dy < -(2 * Stability.deadzone) →
        (Stability.process_movement st x y now).1.2 ≤ -1) := by
  intro st x y now h1 h2
  have hni : ¬ (st.touch_active = false) := by simp [h1]
  simp only [Stability.process_movement]
  rw [if_neg hni, if_neg h2]
  dsimp only
  refine ⟨⟨scale_axis_abs_le _, scale_axis_abs_le _⟩, ?_, ?_, ?_, ?_⟩ <;> intro hgt
  · exact scale_axis_pos (by rw [Stability.deadzone] at hgt; linarith)
  · exact scale_axis_neg (by rw [Stability.deadzone] at hgt; linarith)
  · exact scale_axis_pos (by rw [Stability.deadzone] at hgt; linarith)
  · exact scale_axis_neg (by rw [Stability.deadzone] at hgt; linarith)

/-- Witness for the amended C3 at a concrete smoother state and sample:
the smoothed delta 0.03 exceeds twice the deadzone and the emitted delta
is at least the unit step. -/
theorem C3_witness :
    (|(Stability.process_movement ⟨0, 0, 0, 0, 0, 10, true⟩ (1/10) 0 (1/50)).1.1| ≤ 15) ∧
    1 ≤ (Stability.process_movement ⟨0, 0, 0, 0, 0, 10, true⟩ (1/10) 0 (1/50)).1.1 :=
  ⟨(C3_clamp_and_minstep ⟨0, 0, 0, 0, 0, 10, true⟩ (1/10) 0 (1/50) rfl
      (by norm_num [Stability.deadzone, abs_of_pos, abs_of_nonneg])).1.1,
   (C3_clamp_and_minstep ⟨0, 0, 0, 0, 0, 10, true⟩ (1/10) 0 (1/50) rfl
      (by norm_num [Stability.deadzone, abs_of_pos, abs_of_nonneg])).2.1
     (by norm_num [Stability.process_movement, Stability.effective_smoothing,
       Stability.deadzone, Stability.smoothing_factor, abs_of_pos, abs_of_nonneg])⟩

/-- C2: for every button name in the press table, a plain press issues
the press and schedules exactly one auto-release timer 100ms later, so
that once the clock passes the 100ms mark the trace is exactly one press
followed by one release and no timer is left; a name ending in _HOLD
issues the press and schedules nothing, so the trace stays a single
press with zero releases no matter how far the clock advances. -/
theorem C2_auto_release_vs_hold :
    ∀ (name : Chars) (btn : XButton), lookupCmd xbox_buttons name = some btn →
      ∀ T : ℚ, 1/10 < T →
        (handle_button_press name true 0 PadState.empty).1 = true ∧
        (hasSfx ("_HOLD".toList) name = false →
          (fire_timers T (handle_button_press name true 0 PadState.empty).2).trace
            = [(0, .press btn), (1/10, .release btn)] ∧
          (fire_timers T (handle_button_press name true 0 PadState.empty).2).pending = []) ∧
        (hasSfx ("_HOLD".toList) name = true →
          (fire_timers T (handle_button_press name true 0 PadState.empty).2).trace
            = [(0, .press btn)] ∧
          countReleases (fire_timers T (handle_button_press name true 0 PadState.empty).2).trace
            = 0) := by
  intro name btn hlook T hT
  have hT2 : ((10:ℚ))⁻¹ ≤ T := by
    rw [show ((10:ℚ))⁻¹ = 1/10 by norm_num]
    exact le_of_lt hT
  cases hH : hasSfx ("_HOLD".toList) name
  · have hH2 : hasSfx ['_', 'H', 'O', 'L', 'D'] name = false := hH
    refine ⟨?_, fun _ => ?_, fun hc => Bool.noConfusion hc⟩
    · simp [handle_button_press, hlook, hH2]
    · constructor <;>
        simp [handle_button_press, fire_timers, hlook, hH2, PadState.empty, hT2]
  · have hH2 : hasSfx ['_', 'H', 'O', 'L', 'D'] name = true := hH
    refine ⟨?_, fun hc => Bool.noConfusion hc, fun _ => ?_⟩
    · simp [handle_button_press, hlook, hH2]
    · constructor <;>
        simp [handle_button_press, fire_timers, hlook, hH2, PadState.empty, countReleases]

/-- Witness for C2 at the A button: the plain press X360A and the hold
press X360A_HOLD, with the clock advanced to one second. -/
theorem C2_witness :
    lookupCmd xbox_buttons ("X360A".toList) = some XButton.btnA ∧
    (fire_timers 1 (handle_button_press ("X360A".toList) true 0 PadState.empty).2).trace
      = [(0, .press .btnA), (1/10, .release .btnA)] ∧
    lookupCmd xbox_buttons ("X360A_HOLD".toList) = some XButton.btnA ∧
    (fire_timers 1 (handle_button_press ("X360A_HOLD".toList) true 0 PadState.empty).2).trace
      = [(0, .press .btnA)] :=
  ⟨by decide,
   ((C2_auto_release_vs_hold _ _ (by decide) 1 (by norm_num)).2.1 (by decide)).1,
   by decide,
   ((C2_auto_release_vs_hold _ _ (by decide) 1 (by norm_num)).2.2 (by decide)).1⟩

/-- C1 counterexample: X360A pressed at time 0, X360A_RELEASE received
at 50ms, clock advanced past the 100ms mark.  The trace holds one press
and TWO releases, because handle_button_release never cancels (or even
sees) the pending auto-release timer, which is still pending after the
explicit release and fires at the 100ms mark. -/
theorem C1_counterexample :
    countPresses (fire_timers 1 ((handle_button_release ("X360A_RELEASE".toList) (1/20)
        ((handle_button_press ("X360A".toList) true 0 PadState.empty).2)).2)).trace = 1 ∧
    countReleases (fire_timers 1 ((handle_button_release ("X360A_RELEASE".toList) (1/20)
        ((handle_button_press ("X360A".toList) true 0 PadState.empty).2)).2)).trace = 2 ∧
    ((handle_button_release ("X360A_RELEASE".toList) (1/20)
        ((handle_button_press ("X360A".toList) true 0 PadState.empty).2)).2).pending
      = [(1/10, XButton.btnA)] := by
  norm_num [handle_button_press, handle_button_release, fire_timers, PadState.empty,
    countPresses, countReleases,
    show lookupCmd xbox_buttons ['X', '3', '6', '0', 'A'] = some .btnA from by decide,
    show lookupCmd xbox_release_commands
      ['X', '3', '6', '0', 'A', '_', 'R', 'E', 'L', 'E', 'A', 'S', 'E'] = some .btnA
      from by decide,
    show hasSfx ['_', 'H', 'O', 'L', 'D'] ['X', '3', '6', '0', 'A'] = false from by decide]

/-- C1 (amended): for every plain (non-hold) press name and the matching
explicit release name, a press at time 0 followed by the explicit
release within the 100ms window produces exactly one press and TWO
releases: the explicit release acts immediately but does not cancel the
pending auto-release timer, and the timer fires a second release at the
100ms mark. -/
theorem C1_explicit_release_no_cancel :
    ∀ (name relName : Chars) (btn : XButton),
      lookupCmd xbox_buttons name = some btn →
      lookupCmd xbox_release_commands relName = some btn →
      hasSfx ("_HOLD".toList) name = false →
      ∀ t : ℚ, 0 < t → t < 1/10 → ∀ T : ℚ, 1/10 < T →
        (fire_timers T ((handle_button_release relName t
            ((handle_button_press name true 0 PadState.empty).2)).2)).trace
          = [(0, .press btn), (t, .release btn), (1/10, .release btn)] ∧
        countPresses (fire_timers T ((handle_button_release relName t
            ((handle_button_press name true 0 PadState.empty).2)).2)).trace = 1 ∧
        countReleases (fire_timers T ((handle_button_release relName t
            ((handle_button_press name true 0 PadState.empty).2)).2)).trace = 2 := by
  intro name relName btn hpress hrel hH t ht0 ht1 T hT
  have hT2 : ((10:ℚ))⁻¹ ≤ T := by
    rw [show ((10:ℚ))⁻¹ = 1/10 by norm_num]
    exact le_of_lt hT
  have hH2 : hasSfx ['_', 'H', 'O', 'L', 'D'] name = false := hH
  refine ⟨?_, ?_, ?_⟩ <;>
    simp [handle_button_press, handle_button_release, fire_timers, PadState.empty,
      hpress, hrel, hH2, hT2, countPresses, countReleases]

/-- Witness for the amended C1 at the A button with the explicit release
arriving at 50ms and the clock advanced to one second. -/
theorem C1_witness :
    (fire_timers 1 ((handle_button_release ("X360A_RELEASE".toList) (1/20)
        ((handle_button_press ("X360A".toList) true 0 PadState.empty).2)).2)).trace
      = [(0, .press .btnA), (1/20, .release .btnA), (1/10, .release .btnA)] :=
  (C1_explicit_release_no_cancel ("X360A".toList) ("X360A_RELEASE".toList) .btnA
    (by decide) (by decide) (by decide) (1/20) (by norm_num) (by norm_num) 1 (by norm_num)).1

/-- C4: evaluation of the modular pipeline (NetworkManager.receive_data
feeding the class CommandProcessor) at the failing input.  A CONNECT
with an invalid identity is answered ERROR:invalid_player_id and leaves
the stored identity untouched, as claimed; but CONNECT:player2, although
answered CONNECTED:player2, also leaves the stored identity untouched,
because the class CommandProcessor never writes the registry (the
NetworkManager.register_player method exists for this and has no
caller), so the next command from the same sender is still attributed
to player1, contradicting the claim. -/
theorem C4_connect_attribution_bug :
    (Modular.server_step [] "10.0.0.5:9001" ("CONNECT:player3".toList) 0).2.2.1
      = some ("ERROR:invalid_player_id".toList) ∧
    (lookupA (Modular.server_step [] "10.0.0.5:9001" ("CONNECT:player3".toList) 0).1
        "10.0.0.5:9001").map Conn.player_id = some .p1 ∧
    (Modular.server_step (Modular.server_step [] "10.0.0.5:9001"
        ("CONNECT:player3".toList) 0).1 "10.0.0.5:9001"
        ("CONNECT:player2".toList) 1).2.2.1 = some ("CONNECTED:player2".toList) ∧
    (lookupA (Modular.server_step (Modular.server_step [] "10.0.0.5:9001"
        ("CONNECT:player3".toList) 0).1 "10.0.0.5:9001"
        ("CONNECT:player2".toList) 1).1 "10.0.0.5:9001").map Conn.player_id = some .p1 ∧
    (Modular.server_step (Modular.server_step (Modular.server_step [] "10.0.0.5:9001"
        ("CONNECT:player3".toList) 0).1 "10.0.0.5:9001"
        ("CONNECT:player2".toList) 1).1 "10.0.0.5:9001"
        ("KEY_DOWN:w".toList) 2).2.1 = Player.p1 ∧
    (Modular.server_step (Modular.server_step (Modular.server_step [] "10.0.0.5:9001"
        ("CONNECT:player3".toList) 0).1 "10.0.0.5:9001"
        ("CONNECT:player2".toList) 1).1 "10.0.0.5:9001"
        ("KEY_DOWN:w".toList) 2).2.2.2
      = [Modular.Call.key_press ("w".toList) .p1] := by
  decide

/-- C5 counterexample: the modular CommandProcessor does NOT handle
KEY_SYNC:w like KEY_DOWN:w.  The KEY_SYNC line is dropped (no handler
invoked, no key marked pressed), while KEY_DOWN:w invokes the keyboard
handler. -/
theorem C5_counterexample :
    (Modular.process_command ("KEY_SYNC:w".toList) .p1).2 = [] ∧
    (Modular.process_command ("KEY_DOWN:w".toList) .p1).2
      = [Modular.Call.key_press ("w".toList) .p1] ∧
    Modular.process_command ("KEY_SYNC:w".toList) .p1 ≠
      Modular.process_command ("KEY_DOWN:w".toList) .p1 := by
  refine ⟨by decide, by decide, ?_⟩
  intro h
  have h2 := congrArg (fun r => r.2) h
  revert h2
  decide

/-- C5 (amended): in the monolithic server process_command a KEY_SYNC
line is handled exactly like the corresponding KEY_DOWN line (the key is
marked pressed and the keyboard press is issued for player1), for every
key, player, time and state; the modular CommandProcessor instead
ignores KEY_SYNC entirely, invoking no handler. -/
theorem C5_keysync_as_keydown_mono_only :
    ∀ (k : Chars) (pid : Player) (now : ℚ) (s : Mono.SrvState),
      Mono.process_command (("KEY_SYNC:".toList) ++ k) pid now s =
        Mono.process_command (("KEY_DOWN:".toList) ++ k) pid now s ∧
      (Modular.process_command (("KEY_SYNC:".toList) ++ k) pid).2 = [] := by
  intro k pid now s
  constructor
  · simp [Mono.process_command, stripWs, isWs, hasPfx, pySplit1, splitRest,
      dropWhile_append_cons]
  · simp [Modular.process_command, Modular.mouseTokens, stripWs, isWs, hasPfx,
      pySplit1, splitRest, dropWhile_append_cons]

/-- Witness for the amended C5 at the key w with the default state. -/
theorem C5_witness :
    Mono.process_command ("KEY_SYNC:w".toList) .p1 0 {} =
      Mono.process_command ("KEY_DOWN:w".toList) .p1 0 {} :=
  (C5_keysync_as_keydown_mono_only ("w".toList) .p1 0 {}).1

theorem decay_step_eq_pyInt (m : ℤ) : Mono.decay_step m = pyInt ((m : ℚ) * (19/20)) := by
  rcases le_or_lt 0 m with hm | hm
  · have hq : (0:ℚ) ≤ (m:ℚ) * (19/20) := by
      have : (0:ℚ) ≤ (m:ℚ) := by exact_mod_cast hm
      positivity
    rw [pyInt_eq_floor hq, Mono.decay_step, if_pos hm]
    rw [show ((m:ℚ) * (19/20)) = (((19 * m : ℤ) : ℚ) / ((20:ℕ) : ℚ)) by push_cast; ring]
    rw [Rat.floor_intCast_div_natCast]
    norm_num
  · have hmq : (m:ℚ) < 0 := by exact_mod_cast hm
    have hne : ¬ (0:ℚ) ≤ (m:ℚ) * (19/20) := by nlinarith
    rw [pyInt_eq_ceil hne, Mono.decay_step, if_neg (not_le.mpr hm)]
    rw [show ⌈(m:ℚ) * (19/20)⌉ = -⌊-((m:ℚ) * (19/20))⌋ by rw [Int.floor_neg]; simp]
    congr 1
    rw [show (-((m:ℚ) * (19/20))) = (((19 * (-m) : ℤ) : ℚ) / ((20:ℕ) : ℚ)) by push_cast; ring]
    rw [Rat.floor_intCast_div_natCast]
    norm_num

theorem axis_le_meas (b : Bool) (m : ℤ) :
    (if Mono.axis_active b m = true then (Mono.axis_store b m).natAbs else 0) ≤
      (if b = true then m.natAbs else 0) := by
  cases b
  · simp [Mono.axis_active]
  · by_cases hb : Mono.axis_active true m = true
    · have h2 := hb
      unfold Mono.axis_active at h2
      simp only [Bool.true_and, decide_eq_true_eq] at h2
      simp only [hb, if_true, Mono.axis_store]
      unfold Mono.decay_step at *
      split_ifs at * <;> omega
    · simp [hb]

theorem axis_lt_meas (b : Bool) (m : ℤ) (hb : Mono.axis_active b m = true) :
    (if Mono.axis_active b m = true then (Mono.axis_store b m).natAbs else 0) <
      (if b = true then m.natAbs else 0) := by
  cases b
  · exact absurd hb (by simp [Mono.axis_active])
  · have h2 := hb
    unfold Mono.axis_active at h2
    simp only [Bool.true_and, decide_eq_true_eq] at h2
    simp only [hb, if_true, Mono.axis_store]
    unfold Mono.decay_step at *
    split_ifs at * <;> omega

theorem axis_out_ne (b : Bool) (m : ℤ) (hb : Mono.axis_active b m = true) :
    Mono.axis_out b m ≠ 0 := by
  have h2 := hb
  unfold Mono.axis_active at h2
  simp only [Bool.and_eq_true, decide_eq_true_eq] at h2
  unfold Mono.axis_out
  rw [if_pos hb]
  omega

theorem edge_loop_spec (n : ℕ) : ∀ (ms : Mono.MouseSt), Mono.edgeMeas ms ≤ n →
    (Mono.edge_momentum_loop ms).2.length ≤ Mono.edgeMeas ms ∧
    (∀ mv ∈ (Mono.edge_momentum_loop ms).2, ¬(mv.1 = 0 ∧ mv.2 = 0)) ∧
    (Mono.edge_momentum_loop ms).1.edge_active_x = false ∧
    (Mono.edge_momentum_loop ms).1.edge_active_y = false := by
  induction n with
  | zero =>
    intro ms hm
    have hax : Mono.axis_active ms.edge_active_x ms.momentum_x = false := by
      cases hx : ms.edge_active_x
      · simp [Mono.axis_active, hx]
      · simp only [Mono.edgeMeas, hx, if_true] at hm
        have hm0 : ms.momentum_x = 0 := by omega
        unfold Mono.axis_active Mono.decay_step
        rw [hm0]
        decide
    have hay : Mono.axis_active ms.edge_active_y ms.momentum_y = false := by
      cases hy : ms.edge_active_y
      · simp [Mono.axis_active, hy]
      · simp only [Mono.edgeMeas, hy, if_true] at hm
        have hm0 : ms.momentum_y = 0 := by omega
        unfold Mono.axis_active Mono.decay_step
        rw [hm0]
        decide
    rw [Mono.edge_momentum_loop.eq_def]
    dsimp only
    rw [dif_neg (by rw [hax, hay]; simp)]
    exact ⟨by simp, by simp, by simp [hax], by simp [hay]⟩
  | succ n ih =>
    intro ms hm
    rw [Mono.edge_momentum_loop.eq_def]
    dsimp only
    by_cases hcond : ((Mono.axis_active ms.edge_active_x ms.momentum_x ||
        Mono.axis_active ms.edge_active_y ms.momentum_y) = true ∧
        (Mono.axis_out ms.edge_active_x ms.momentum_x ≠ 0 ∨
         Mono.axis_out ms.edge_active_y ms.momentum_y ≠ 0))
    · rw [dif_pos hcond]
      have hlt : Mono.edgeMeas { ms with
            momentum_x := Mono.axis_store ms.edge_active_x ms.momentum_x,
            momentum_y := Mono.axis_store ms.edge_active_y ms.momentum_y,
            edge_active_x := Mono.axis_active ms.edge_active_x ms.momentum_x,
            edge_active_y := Mono.axis_active ms.edge_active_y ms.momentum_y,
            total_dx := ms.total_dx + Mono.axis_out ms.edge_active_x ms.momentum_x,
            total_dy := ms.total_dy + Mono.axis_out ms.edge_active_y ms.momentum_y }
          < Mono.edgeMeas ms := by
        have hor := hcond.1
        rw [Bool.or_eq_true] at hor
        rcases hor with hA | hA
        · exact add_lt_add_of_lt_of_le (axis_lt_meas _ _ hA) (axis_le_meas _ _)
        · exact add_lt_add_of_le_of_lt (axis_le_meas _ _) (axis_lt_meas _ _ hA)
      have hrec := ih { ms with
            momentum_x := Mono.axis_store ms.edge_active_x ms.momentum_x,
            momentum_y := Mono.axis_store ms.edge_active_y ms.momentum_y,
            edge_active_x := Mono.axis_active ms.edge_active_x ms.momentum_x,
            edge_active_y := Mono.axis_active ms.edge_active_y ms.momentum_y,
            total_dx := ms.total_dx + Mono.axis_out ms.edge_active_x ms.momentum_x,
            total_dy := ms.total_dy + Mono.axis_out ms.edge_active_y ms.momentum_y }
        (by omega)
      refine ⟨?_, ?_, hrec.2.2.1, hrec.2.2.2⟩
      · have h1 := hrec.1
        simp only [List.length_cons]
        omega
      · intro mv hmv
        rcases List.mem_cons.mp hmv with rfl | hmv'
        · rintro ⟨hz1, hz2⟩
          rcases hcond.2 with hne | hne
          · exact hne hz1
          · exact hne hz2
        · exact hrec.2.1 mv hmv'
    · rw [dif_neg hcond]
      have hax : Mono.axis_active ms.edge_active_x ms.momentum_x = false := by
        by_contra hx
        rw [Bool.not_eq_false] at hx
        exact hcond ⟨by rw [hx]; simp, Or.inl (axis_out_ne _ _ hx)⟩
      have hay : Mono.axis_active ms.edge_active_y ms.momentum_y = false := by
        by_contra hy
        rw [Bool.not_eq_false] at hy
        exact hcond ⟨by rw [hy]; simp, Or.inr (axis_out_ne _ _ hy)⟩
      exact ⟨by simp, by simp, by simp [hax], by simp [hay]⟩

/-- C7: a decay tick computes int(momentum * 0.95), truncation toward
zero of the rational product (first conjunct); for every initial mouse
state, the edge-momentum chain emits at most as many motion pairs as
the summed momentum magnitude of the active axes, every emitted pair is
non-zero, and once the chain stops both axes are deactivated (so no
further motion is emitted). -/
theorem C7_edge_momentum_terminates :
    (∀ m : ℤ, Mono.decay_step m = pyInt ((m : ℚ) * (19/20))) ∧
    (∀ ms : Mono.MouseSt,
      (Mono.edge_momentum_loop ms).2.length ≤ Mono.edgeMeas ms ∧
      (∀ mv ∈ (Mono.edge_momentum_loop ms).2, ¬(mv.1 = 0 ∧ mv.2 = 0)) ∧
      (Mono.edge_momentum_loop ms).1.edge_active_x = false ∧
      (Mono.edge_momentum_loop ms).1.edge_active_y = false) :=
  ⟨decay_step_eq_pyInt, fun ms => edge_loop_spec (Mono.edgeMeas ms) ms le_rfl⟩

/-- Witness for C7 on the state with x momentum 5 and an active x axis:
the chain emits the decaying steps 4, 3, 2 and stops. -/
theorem C7_witness :
    (Mono.edge_momentum_loop { edge_active_x := true, momentum_x := 5 }).2.length ≤
      Mono.edgeMeas { edge_active_x := true, momentum_x := 5 } ∧
    ¬((((4:ℤ), (0:ℤ)).1 = 0) ∧ (((4:ℤ), (0:ℤ)).2 = 0)) :=
  ⟨(C7_edge_momentum_terminates.2 { edge_active_x := true, momentum_x := 5 }).1,
   (C7_edge_momentum_terminates.2 { edge_active_x := true, momentum_x := 5 }).2.1 (4, 0)
     (by simp [Mono.edge_momentum_loop, Mono.axis_active, Mono.axis_out, Mono.axis_store,
       Mono.decay_step])⟩

theorem pySplit1_some_shape {c : Char} {d a b : Chars}
    (h : pySplit1 c d = some (a, b)) : d = a ++ c :: b ∧ c ∉ a := by
  induction d generalizing a with
  | nil => simp [pySplit1] at h
  | cons x xs ih =>
    rw [pySplit1] at h
    by_cases hx : (x == c) = true
    · rw [if_pos hx] at h
      injection h with h
      injection h with hl hr
      subst hl
      subst hr
      simp [eq_of_beq hx]
    · rw [if_neg hx] at h
      cases hsp : pySplit1 c xs with
      | none => rw [hsp] at h; simp at h
      | some p =>
        obtain ⟨a0, b0⟩ := p
        rw [hsp] at h
        simp only [Option.map] at h
        injection h with h
        injection h with hl hr
        subst hl
        subst hr
        refine ⟨by simp [(ih hsp).1], ?_⟩
        simp only [List.mem_cons, not_or]
        exact ⟨fun hc => hx (by simp [hc]), (ih hsp).2⟩

theorem hasPfx_exists {p d : Chars} (h : hasPfx p d = true) : ∃ r, d = p ++ r := by
  induction p generalizing d with
  | nil => exact ⟨d, rfl⟩
  | cons a as ih =>
    cases d with
    | nil => simp [hasPfx] at h
    | cons b bs =>
      simp only [hasPfx, Bool.and_eq_true, beq_iff_eq] at h
      rcases ih h.2 with ⟨r, rfl⟩
      exact ⟨r, by rw [h.1]; simp⟩

theorem key_press_sim (k : Chars) (π : Player) (s t : Mono.SrvState)
    (h1 : s.keys1 = t.keys1) (h2 : s.mouse1 = t.mouse1) :
    (Mono.handle_key_press k π s).2 = (Mono.handle_key_press k π t).2 ∧
    (Mono.handle_key_press k π s).1.keys1 = (Mono.handle_key_press k π t).1.keys1 ∧
    (Mono.handle_key_press k π s).1.mouse1 = (Mono.handle_key_press k π t).1.mouse1 := by
  cases π <;> simp [Mono.handle_key_press, Mono.setKeys, Mono.keysOf, h1, h2]

theorem key_release_sim (k : Chars) (π : Player) (s t : Mono.SrvState)
    (h1 : s.keys1 = t.keys1) (h2 : s.mouse1 = t.mouse1) :
    (Mono.handle_key_release k π s).2 = (Mono.handle_key_release k π t).2 ∧
    (Mono.handle_key_release k π s).1.keys1 = (Mono.handle_key_release k π t).1.keys1 ∧
    (Mono.handle_key_release k π s).1.mouse1 = (Mono.handle_key_release k π t).1.mouse1 := by
  cases π <;> simp [Mono.handle_key_release, Mono.setKeys, Mono.keysOf, h1, h2]

theorem touch_sim (xs ys : Chars) (π : Player) (now : ℚ) (s t : Mono.SrvState)
    (h1 : s.keys1 = t.keys1) (h2 : s.mouse1 = t.mouse1) :
    (Mono.handle_touchpad_input xs ys π now s).2 =
      (Mono.handle_touchpad_input xs ys π now t).2 ∧
    (Mono.handle_touchpad_input xs ys π now s).1.keys1 =
      (Mono.handle_touchpad_input xs ys π now t).1.keys1 ∧
    (Mono.handle_touchpad_input xs ys π now s).1.mouse1 =
      (Mono.handle_touchpad_input xs ys π now t).1.mouse1 := by
  cases π <;> simp [Mono.handle_touchpad_input, Mono.setMouse, Mono.mouseOf, h1, h2]

set_option maxHeartbeats 1600000 in
theorem button_press_sim (c : Chars) (π : Player) (s t : Mono.SrvState)
    (h1 : s.keys1 = t.keys1) (h2 : s.mouse1 = t.mouse1) :
    (Mono.handle_button_press c π s).1 = (Mono.handle_button_press c π t).1 ∧
    (Mono.handle_button_press c π s).2.2 = (Mono.handle_button_press c π t).2.2 ∧
    (Mono.handle_button_press c π s).2.1.keys1 = (Mono.handle_button_press c π t).2.1.keys1 ∧
    (Mono.handle_button_press c π s).2.1.mouse1 =
      (Mono.handle_button_press c π t).2.1.mouse1 := by
  cases π <;>
    (simp only [Mono.handle_button_press]
     repeat' split) <;>
    first
    | exact ⟨rfl, rfl, h1, h2⟩
    | (refine ⟨rfl, rfl, ?_, ?_⟩ <;>
        simp [Mono.handle_key_press, Mono.handle_key_release, Mono.setKeys, Mono.keysOf,
          Mono.setMouse, Mono.mouseOf, h1, h2])

theorem seq_sim (cs : List Chars) (π : Player) :
    ∀ (s t : Mono.SrvState), s.keys1 = t.keys1 → s.mouse1 = t.mouse1 →
    (Mono.process_timed_sequence cs π s).2 = (Mono.process_timed_sequence cs π t).2 ∧
    (Mono.process_timed_sequence cs π s).1.keys1 =
      (Mono.process_timed_sequence cs π t).1.keys1 ∧
    (Mono.process_timed_sequence cs π s).1.mouse1 =
      (Mono.process_timed_sequence cs π t).1.mouse1 := by
  induction cs with
  | nil => intro s t h1 h2; exact ⟨rfl, h1, h2⟩
  | cons c rest ih =>
    intro s t h1 h2
    have hb := button_press_sim (stripWs c) π s t h1 h2
    have hrest := ih (Mono.handle_button_press (stripWs c) π s).2.1
      (Mono.handle_button_press (stripWs c) π t).2.1 hb.2.2.1 hb.2.2.2
    simp only [Mono.process_timed_sequence]
    split
    · exact ih s t h1 h2
    · exact ⟨by rw [hb.2.1, hrest.1], hrest.2.1, hrest.2.2⟩

theorem process_command_eq_staged (d : Chars) (π : Player) (now : ℚ) (s : Mono.SrvState) :
    Mono.process_command d π now s = Mono.process_staged d π now s := rfl

theorem bare_sim (data : Chars) (π : Player) (s t : Mono.SrvState)
    (h1 : s.keys1 = t.keys1) (h2 : s.mouse1 = t.mouse1) :
    (Mono.process_bare data π s).2.2 = (Mono.process_bare data π t).2.2 ∧
    (Mono.process_bare data π s).2.1 = (Mono.process_bare data π t).2.1 ∧
    (Mono.process_bare data π s).1.keys1 = (Mono.process_bare data π t).1.keys1 ∧
    (Mono.process_bare data π s).1.mouse1 = (Mono.process_bare data π t).1.mouse1 := by
  simp only [Mono.process_bare]
  split
  · exact ⟨(seq_sim _ _ s t h1 h2).1, rfl, (seq_sim _ _ s t h1 h2).2.1,
      (seq_sim _ _ s t h1 h2).2.2⟩
  · exact ⟨(button_press_sim _ _ s t h1 h2).2.1, rfl,
      (button_press_sim _ _ s t h1 h2).2.2.1, (button_press_sim _ _ s t h1 h2).2.2.2⟩

theorem coords_sim (data : Chars) (π : Player) (now : ℚ) (s t : Mono.SrvState)
    (h1 : s.keys1 = t.keys1) (h2 : s.mouse1 = t.mouse1) :
    (Mono.process_coords data π now s).2.2 = (Mono.process_coords data π now t).2.2 ∧
    (Mono.process_coords data π now s).2.1 = (Mono.process_coords data π now t).2.1 ∧
    (Mono.process_coords data π now s).1.keys1 = (Mono.process_coords data π now t).1.keys1 ∧
    (Mono.process_coords data π now s).1.mouse1 =
      (Mono.process_coords data π now t).1.mouse1 := by
  simp only [Mono.process_coords]
  repeat' split
  all_goals
    first
    | exact ⟨rfl, rfl, h1, h2⟩
    | exact ⟨(touch_sim _ _ _ now s t h1 h2).1, rfl, (touch_sim _ _ _ now s t h1 h2).2.1,
        (touch_sim _ _ _ now s t h1 h2).2.2⟩
    | exact bare_sim _ _ s t h1 h2

theorem shortcut_sim (data : Chars) (π : Player) (now : ℚ) (s t : Mono.SrvState)
    (h1 : s.keys1 = t.keys1) (h2 : s.mouse1 = t.mouse1) :
    (Mono.process_shortcut data π now s).2.2 = (Mono.process_shortcut data π now t).2.2 ∧
    (Mono.process_shortcut data π now s).2.1 = (Mono.process_shortcut data π now t).2.1 ∧
    (Mono.process_shortcut data π now s).1.keys1 =
      (Mono.process_shortcut data π now t).1.keys1 ∧
    (Mono.process_shortcut data π now s).1.mouse1 =
      (Mono.process_shortcut data π now t).1.mouse1 := by
  simp only [Mono.process_shortcut]
  repeat' split
  all_goals
    first
    | exact ⟨rfl, rfl, h1, h2⟩
    | exact coords_sim _ _ now s t h1 h2

set_option maxHeartbeats 1600000 in
theorem tail_sim (data : Chars) (π : Player) (now : ℚ) (s t : Mono.SrvState)
    (h1 : s.keys1 = t.keys1) (h2 : s.mouse1 = t.mouse1) :
    (Mono.process_tail data π now s).2.2 = (Mono.process_tail data π now t).2.2 ∧
    (Mono.process_tail data π now s).2.1 = (Mono.process_tail data π now t).2.1 ∧
    (Mono.process_tail data π now s).1.keys1 = (Mono.process_tail data π now t).1.keys1 ∧
    (Mono.process_tail data π now s).1.mouse1 = (Mono.process_tail data π now t).1.mouse1 := by
  simp only [Mono.process_tail]
  repeat' split
  all_goals
    first
    | exact ⟨rfl, rfl, h1, h2⟩
    | exact shortcut_sim _ _ now s t h1 h2
    | (refine ⟨?_, rfl, ?_, ?_⟩ <;> cases π <;>
        simp [Mono.handle_key_press, Mono.handle_key_release,
          Mono.setKeys, Mono.keysOf, Mono.setMouse, Mono.mouseOf, h1, h2])

set_option maxHeartbeats 1600000 in
theorem step_sim (d : Chars) (π : Player) (now : ℚ) (s t : Mono.SrvState)
    (h1 : s.keys1 = t.keys1) (h2 : s.mouse1 = t.mouse1) :
    (Mono.process_command d π now s).2.2 = (Mono.process_command d π now t).2.2 ∧
    (Mono.process_command d π now s).2.1 = (Mono.process_command d π now t).2.1 ∧
    (Mono.process_command d π now s).1.keys1 = (Mono.process_command d π now t).1.keys1 ∧
    (Mono.process_command d π now s).1.mouse1 = (Mono.process_command d π now t).1.mouse1 := by
  rw [process_command_eq_staged d π now s, process_command_eq_staged d π now t]
  cases π <;>
    (simp only [Mono.process_staged]
     repeat' split) <;>
    first
    | exact ⟨rfl, rfl, h1, h2⟩
    | (refine ⟨rfl, rfl, ?_, ?_⟩ <;> simp [Mono.setMouse, Mono.mouseOf, h1, h2])
    | exact tail_sim _ _ now s t h1 h2


set_option maxHeartbeats 3200000 in
theorem p2_passive_step (data0 : Chars) (now : ℚ) (s : Mono.SrvState)
    (hp : Mono.player2_passive data0 = true) :
    (Mono.process_command data0 .p2 now s).2.1 = none ∧
    (Mono.process_command data0 .p2 now s).2.2 = [] ∧
    (Mono.process_command data0 .p2 now s).1.keys1 = s.keys1 ∧
    (Mono.process_command data0 .p2 now s).1.mouse1 = s.mouse1 := by
  simp only [Mono.player2_passive, Bool.or_eq_true, beq_iff_eq] at hp
  rcases hp with ((((hA | hB) | hC) | hD) | hE)
  · obtain ⟨r, hr⟩ := hasPfx_exists hA
    refine ⟨?_, ?_, ?_, ?_⟩ <;>
      simp [Mono.process_command, hr, hasPfx, pySplit1, splitRest,
        Mono.handle_key_press, Mono.setKeys, Mono.keysOf]
  · obtain ⟨r, hr⟩ := hasPfx_exists hB
    refine ⟨?_, ?_, ?_, ?_⟩ <;>
      simp [Mono.process_command, hr, hasPfx, pySplit1, splitRest,
        Mono.handle_key_release, Mono.setKeys, Mono.keysOf]
  · refine ⟨?_, ?_, ?_, ?_⟩ <;>
      simp [Mono.process_command, hC, hasPfx, pySplit1, splitRest,
        Modular.lookupShortcut, Modular.stick_shortcuts, Mono.handle_button_press,
        lookupCmd, xbox_release_commands, xbox_buttons]
  · refine ⟨?_, ?_, ?_, ?_⟩ <;>
      simp [Mono.process_command, hD, hasPfx, pySplit1, splitRest,
        Modular.lookupShortcut, Modular.stick_shortcuts, Mono.handle_button_press,
        lookupCmd, xbox_release_commands, xbox_buttons]
  · cases hsp : pySplit1 ':' (stripWs data0) with
    | none =>
      simp only [hsp, Bool.and_eq_true, Bool.not_eq_true', beq_eq_false_iff_ne,
        Option.isNone_iff_eq_none] at hE
      obtain ⟨⟨⟨⟨⟨⟨⟨⟨hne, hnc⟩, hping⟩, htd⟩, htu⟩, hw⟩, hsc⟩, hrel⟩, hbtn⟩ := hE
      have hcol : ':' ∉ stripWs data0 := (pySplit1_eq_none_iff ':' (stripWs data0)).mp hsp
      have hnp : ∀ p : Chars, ':' ∈ p → hasPfx p (stripWs data0) = false := fun p hin => by
        cases hx : hasPfx p (stripWs data0) with
        | false => rfl
        | true => exact absurd (contains_of_hasPfx hx hin) hcol
      have hCON : hasPfx (['C','O','N','N','E','C','T',':'] : Chars) (stripWs data0) = false :=
        hnp _ (by decide)
      have hREG : hasPfx (['R','E','G','I','S','T','E','R',':'] : Chars) (stripWs data0) = false :=
        hnp _ (by decide)
      have hKD : hasPfx (['K','E','Y','_','D','O','W','N',':'] : Chars) (stripWs data0) = false :=
        hnp _ (by decide)
      have hKU : hasPfx (['K','E','Y','_','U','P',':'] : Chars) (stripWs data0) = false :=
        hnp _ (by decide)
      have hKS : hasPfx (['K','E','Y','_','S','Y','N','C',':'] : Chars) (stripWs data0) = false :=
        hnp _ (by decide)
      have hTL : hasPfx (['T','R','I','G','G','E','R','_','L',':'] : Chars)
          (stripWs data0) = false := hnp _ (by decide)
      have hTR : hasPfx (['T','R','I','G','G','E','R','_','R',':'] : Chars)
          (stripWs data0) = false := hnp _ (by decide)
      have hLT : hasPfx (['L','T',':'] : Chars) (stripWs data0) = false := hnp _ (by decide)
      have hRT : hasPfx (['R','T',':'] : Chars) (stripWs data0) = false := hnp _ (by decide)
      have hping2 : ¬ (stripWs data0 = (['P','I','N','G'] : Chars)) := hping
      have htd2 : ¬ (stripWs data0 =
          (['T','O','U','C','H','P','A','D','_','D','O','W','N'] : Chars)) := htd
      have htu2 : ¬ (stripWs data0 =
          (['T','O','U','C','H','P','A','D','_','U','P'] : Chars)) := htu
      have hw2 : hasPfx (['W','A','I','T','_'] : Chars) (stripWs data0) = false := hw
      by_cases hm1 : stripWs data0 =
          (['M','O','U','S','E','_','L','E','F','T','_','D','O','W','N'] : Chars)
      · have hcm : (['M','O','U','S','E','_','L','E','F','T','_','D','O','W','N'] :
            Chars).contains ',' = false := by decide
        refine ⟨?_, ?_, ?_, ?_⟩ <;>
          simp [Mono.process_command, hm1, hcm, hasPfx, pySplit1, splitRest,
            Modular.lookupShortcut, Modular.stick_shortcuts, Mono.handle_button_press,
            lookupCmd, xbox_release_commands, xbox_buttons]
      · by_cases hm2 : stripWs data0 =
            (['M','O','U','S','E','_','L','E','F','T','_','U','P'] : Chars)
        · have hcm : (['M','O','U','S','E','_','L','E','F','T','_','U','P'] :
              Chars).contains ',' = false := by decide
          refine ⟨?_, ?_, ?_, ?_⟩ <;>
            simp [Mono.process_command, hm2, hcm, hasPfx, pySplit1, splitRest,
              Modular.lookupShortcut, Modular.stick_shortcuts, Mono.handle_button_press,
              lookupCmd, xbox_release_commands, xbox_buttons]
        · have hnc2 : ¬ (',' ∈ stripWs data0) := by simpa using hnc
          refine ⟨?_, ?_, ?_, ?_⟩ <;>
            simp [Mono.process_command, hsp, hping2, htd2, htu2, hCON, hREG, hKD, hKU, hKS,
              hTL, hTR, hLT, hRT, hw2, hsc, hrel, hbtn, hnc2, hm1, hm2,
              Mono.handle_button_press]
    | some p =>
      obtain ⟨command, coords⟩ := p
      simp only [hsp, Bool.and_eq_true, Bool.or_eq_true, beq_iff_eq] at hE
      obtain ⟨hcmd, hxyS⟩ := hE
      rw [Option.isSome_iff_exists] at hxyS
      obtain ⟨⟨xv, yv⟩, hxy⟩ := hxyS
      obtain ⟨hshape, hnotin⟩ := pySplit1_some_shape hsp
      rcases hcmd with hcmd | hcmd <;> subst hcmd <;>
        (refine ⟨?_, ?_, ?_, ?_⟩ <;>
          simp [Mono.process_command, hshape, hxy, pySplit1, hasPfx, splitRest,
            Modular.lookupShortcut, Modular.stick_shortcuts,
            Mono.handle_touchpad_input, Mono.setMouse, Mono.mouseOf])

theorem run_sim (cmds : List (Chars × Player × ℚ)) :
    ∀ (s t : Mono.SrvState), s.keys1 = t.keys1 → s.mouse1 = t.mouse1 →
    (Mono.mono_run s cmds).2 = (Mono.mono_run t cmds).2 := by
  induction cmds with
  | nil => intro s t h1 h2; rfl
  | cons c rest ih =>
    intro s t h1 h2
    obtain ⟨d, π, τ⟩ := c
    have hs := step_sim d π τ s t h1 h2
    simp only [Mono.mono_run]
    rw [hs.1, ih _ _ hs.2.2.1 hs.2.2.2]

/-- C6: a key press or release, an unrecognized bare token, a mouse
button command or an absolute touch motion sent by the player2 session
is accepted without an error reply but invokes no actuator call, and
inserting such a command anywhere into a datagram sequence leaves the
whole actuator trace of the monolithic server unchanged. -/
theorem C6_player2_passive_noninterference (data : Chars)
    (hpass : Mono.player2_passive data = true) :
    (∀ (now : ℚ) (s : Mono.SrvState),
      (Mono.process_command data .p2 now s).2.1 = none ∧
      (Mono.process_command data .p2 now s).2.2 = []) ∧
    ∀ (s0 : Mono.SrvState) (pre post : List (Chars × Player × ℚ)) (now : ℚ),
      (Mono.mono_run s0 (pre ++ (data, .p2, now) :: post)).2 =
      (Mono.mono_run s0 (pre ++ post)).2 := by
  constructor
  · intro now s
    exact ⟨(p2_passive_step data now s hpass).1, (p2_passive_step data now s hpass).2.1⟩
  · intro s0 pre post now
    induction pre generalizing s0 with
    | nil =>
      have hp4 := p2_passive_step data now s0 hpass
      simp only [Mono.mono_run, List.nil_append]
      rw [hp4.2.1, run_sim post _ _ hp4.2.2.1 hp4.2.2.2]
      simp
    | cons c pre ih =>
      obtain ⟨d0, π0, τ0⟩ := c
      simp only [Mono.mono_run, List.cons_append]
      exact congrArg _ (ih _)

theorem C6_witness :
    Mono.player2_passive ("KEY_DOWN:w".toList) = true ∧
    ((Mono.process_command ("KEY_DOWN:w".toList) .p2 0 {}).2.1 = none ∧
     (Mono.process_command ("KEY_DOWN:w".toList) .p2 0 {}).2.2 = []) ∧
    (Mono.mono_run {} ([] ++ ("KEY_DOWN:w".toList, Player.p2, (0:ℚ)) :: [])).2 =
      (Mono.mono_run {} ([] ++ [])).2 :=
  ⟨by decide,
   (C6_player2_passive_noninterference ("KEY_DOWN:w".toList) (by decide)).1 0 {},
   (C6_player2_passive_noninterference ("KEY_DOWN:w".toList) (by decide)).2 {} [] [] 0⟩

end Simplecontroller
